import Mathlib

/-!
Shallow embedding of the Canvas pixel-grid engine from
src/src/components/Canvas/Canvas.tsx, together with proofs about its
transform, adjacency, region and flood-fill behaviour.

Modelling notes, justified against the source:
  - The sparse 2D array cellData is embedded as an association list from
    (row, col) to cell records.  The source stores on each cell direct
    neighbor references, but every paint recomputes the neighbor set of the
    painted cell from cellData (getCellNeighbors) and refreshes the
    back-reference of each cardinal neighbor (informAdjacentNeighbors), so a
    neighbor link always equals the current store lookup at the neighboring
    coordinate; neighbor access is therefore embedded as a store lookup.
  - The canvas 2D context transform starts as the identity and is only ever
    composed with translations and uniform scalings, so it always has the
    shape [s, 0, 0, s, e, f]; it is embedded as the triple (scale, panX,
    panY) over the rationals, with context.translate(tx, ty) acting as
    e += s * tx, f += s * ty and context.scale(k) as s *= k.
  - The recursive flood fill is embedded with an explicit fuel parameter;
    fuel (number of stored cells + 1) is proved sufficient below, which is
    the termination argument for the unbounded recursion of the source.
  - parseInt(mask.toString(2), 2) in paintCell is the identity on the
    nonnegative integer mask and is embedded as such.
-/

namespace StoreMapper

/-! ### Transform: pan, zoom and coordinate conversions -/

structure XYCoord where
  x : ℚ
  y : ℚ
  deriving DecidableEq, Repr

structure Transform where
  scale : ℚ
  panX : ℚ
  panY : ℚ
  deriving DecidableEq, Repr

/-- Canvas.minScale (source line 81). -/
def minScale : ℚ := 3 / 10

/-- Canvas.maxScale (source line 82). -/
def maxScale : ℚ := 3

/-- The action of the DOMMatrix [s, 0, 0, s, e, f] on a point: world to
canvas device coordinates. -/
def applyTransform (t : Transform) (p : XYCoord) : XYCoord :=
  ⟨t.scale * p.x + t.panX, t.scale * p.y + t.panY⟩

/-- canvasToWorld: world = (canvas - pan) / scale. -/
def canvasToWorld (t : Transform) (canvasCoord : XYCoord) : XYCoord :=
  ⟨(canvasCoord.x - t.panX) / t.scale, (canvasCoord.y - t.panY) / t.scale⟩

/-- viewportToWorld: subtract the bounding client rect position, then
canvasToWorld. -/
def viewportToWorld (t : Transform) (rect : XYCoord) (viewportCoord : XYCoord) : XYCoord :=
  canvasToWorld t ⟨viewportCoord.x - rect.x, viewportCoord.y - rect.y⟩

/-- Modelled from the spec: the source has no world-to-viewport conversion
(only viewportToWorld and canvasToWorld exist), but the round-trip property
of the spec needs the inverse conversion.  From the spec formula
world = (canvas - pan) / scale the inverse is canvas = world * scale + pan,
and viewport coordinates add the bounding rect position back. -/
def worldToViewport (t : Transform) (rect : XYCoord) (worldCoord : XYCoord) : XYCoord :=
  ⟨worldCoord.x * t.scale + t.panX + rect.x, worldCoord.y * t.scale + t.panY + rect.y⟩

structure ViewState where
  transform : Transform
  shouldRender : Bool
  deriving DecidableEq, Repr

/-- handlePan (source lines 340-348): context.translate(movementX / scale,
movementY / scale), which composes into the pan components as
e += scale * (movementX / scale), then mark dirty. -/
def handlePan (v : ViewState) (movementX movementY : ℚ) : ViewState :=
  { transform :=
      { v.transform with
        panX := v.transform.panX + v.transform.scale * (movementX / v.transform.scale)
        panY := v.transform.panY + v.transform.scale * (movementY / v.transform.scale) }
    shouldRender := true }

/-- handleWheel (source lines 350-366): compute the world point under the
cursor, clamp the additive scale delta, then compose
translate(worldOrigin) * scale(scaleFactor) * translate(-worldOrigin)
onto the current transform and mark dirty. -/
def handleWheel (v : ViewState) (rect : XYCoord) (clientX clientY deltaY : ℚ) : ViewState :=
  let t := v.transform
  let worldOrigin := viewportToWorld t rect ⟨clientX, clientY⟩
  let unclampedScaleDelta := (-1 * deltaY) / 320
  let nextScale := max minScale (min (t.scale + unclampedScaleDelta) maxScale)
  let scaleFactor := nextScale / t.scale
  { transform :=
      { scale := t.scale * scaleFactor
        panX := t.panX + t.scale * worldOrigin.x - t.scale * scaleFactor * worldOrigin.x
        panY := t.panY + t.scale * worldOrigin.y - t.scale * scaleFactor * worldOrigin.y }
    shouldRender := true }

/-- A wheel event: bounding rect position, client point and deltaY. -/
structure WheelEvent where
  rectX : ℚ
  rectY : ℚ
  clientX : ℚ
  clientY : ℚ
  deltaY : ℚ
  deriving DecidableEq, Repr

def wheelStep (v : ViewState) (e : WheelEvent) : ViewState :=
  handleWheel v ⟨e.rectX, e.rectY⟩ e.clientX e.clientY e.deltaY

/-! ### Grid store, adjacency masks, regions and painting -/

/-- A cell coordinate (row, col). -/
abbrev GridCellCoord := Int × Int

/-- A grid cell.  The id field of the source is the coordinate key of the
store; the neighbor links are store lookups (see the modelling notes). -/
structure GridCell where
  fillStyle : String
  adjacency : Nat
  regionId : Nat
  deriving DecidableEq, Repr

abbrev CellStore := List (GridCellCoord × GridCell)

/-- getCell: lookup of cellData[row]?.[col]. -/
def getCell (g : CellStore) (c : GridCellCoord) : Option GridCell :=
  match g with
  | [] => none
  | p :: rest => if p.1 = c then some p.2 else getCell rest c

/-- Overwriting the cell stored at a coordinate (the slot assignment
cellData[row][col] = cell for an occupied slot). -/
def updateStore (g : CellStore) (c : GridCellCoord) (cell : GridCell) : CellStore :=
  g.map (fun p => if p.1 = c then (p.1, cell) else p)

/-- The slot assignment cellData[row][col] = cell: replace when present,
append when absent. -/
def setCellStore (g : CellStore) (c : GridCellCoord) (cell : GridCell) : CellStore :=
  if (getCell g c).isSome then updateStore g c cell else g ++ [(c, cell)]

inductive Direction where
  | north
  | east
  | south
  | west
  deriving DecidableEq, Repr

instance : Fintype Direction :=
  ⟨⟨{Direction.north, Direction.east, Direction.south, Direction.west}, by decide⟩,
    fun d => by cases d <;> decide⟩

/-- The directions constant of the source, in its order. -/
def directionList : List Direction :=
  [Direction.north, Direction.east, Direction.south, Direction.west]

/-- getCellNeighbors offsets: north = row - 1, east = col + 1,
south = row + 1, west = col - 1. -/
def neighborCoord : GridCellCoord → Direction → GridCellCoord
  | (row, col), Direction.north => (row - 1, col)
  | (row, col), Direction.east => (row, col + 1)
  | (row, col), Direction.south => (row + 1, col)
  | (row, col), Direction.west => (row, col - 1)

def opposite : Direction → Direction
  | Direction.north => Direction.south
  | Direction.east => Direction.west
  | Direction.south => Direction.north
  | Direction.west => Direction.east

/-- CardinalBit: North = 1 <<< 3, East = 1 <<< 2, South = 1 <<< 1,
West = 1 <<< 0. -/
def cardinalBit : Direction → Nat
  | Direction.north => 8
  | Direction.east => 4
  | Direction.south => 2
  | Direction.west => 1

/-- setMaskBit: mask | bit. -/
def setMaskBit (mask bit : Nat) : Nat := mask ||| bit

/-- unsetMaskBit: mask & ~bit, with the bitwise complement taken on 32 bits
as in the source language. -/
def unsetMaskBit (mask bit : Nat) : Nat := mask &&& (4294967295 ^^^ bit)

/-- Whether the neighbor in direction d exists and carries the given fill
(the test neighbors.dir?.fillStyle === fill). -/
def neighborHasFill (g : CellStore) (fill : String) (c : GridCellCoord) (d : Direction) : Bool :=
  decide ((getCell g (neighborCoord c d)).map GridCell.fillStyle = some fill)

/-- The mask-building shape of makeAdjacencyMask: start from 0b0000 and set
the four bits one after the other. -/
def maskOfBools (f : Direction → Bool) : Nat :=
  let m0 : Nat := 0
  let m1 := if f Direction.north then setMaskBit m0 (cardinalBit Direction.north) else m0
  let m2 := if f Direction.east then setMaskBit m1 (cardinalBit Direction.east) else m1
  let m3 := if f Direction.south then setMaskBit m2 (cardinalBit Direction.south) else m2
  if f Direction.west then setMaskBit m3 (cardinalBit Direction.west) else m3

/-- makeAdjacencyMask (source lines 382-402), with the comparisons done
against the active fill style. -/
def makeAdjacencyMask (g : CellStore) (fill : String) (c : GridCellCoord) : Nat :=
  maskOfBools (neighborHasFill g fill c)

/-- The rewrite applied by one arm of informAdjacentNeighbors to the
neighbor record in direction d: set the adjacency bit facing back when the
neighbor fill equals the active fill, clear it otherwise. -/
def informAdjust (fill : String) (d : Direction) (n : GridCell) : GridCell :=
  { n with
    adjacency :=
      if n.fillStyle = fill then setMaskBit n.adjacency (cardinalBit (opposite d))
      else unsetMaskBit n.adjacency (cardinalBit (opposite d)) }

/-- One arm of informAdjacentNeighbors: refresh, on the neighbor in
direction d of the cell at c, the adjacency bit that faces back toward c
(set it when the neighbor fill equals the active fill, clear it
otherwise). -/
def informOne (fill : String) (g : CellStore) (c : GridCellCoord) (d : Direction) : CellStore :=
  match getCell g (neighborCoord c d) with
  | none => g
  | some n =>
      let bit := cardinalBit (opposite d)
      let nextMask :=
        if n.fillStyle = fill then setMaskBit n.adjacency bit else unsetMaskBit n.adjacency bit
      updateStore g (neighborCoord c d) { n with adjacency := nextMask }

/-- informAdjacentNeighbors (source lines 433-468). -/
def informAdjacentNeighbors (fill : String) (g : CellStore) (c : GridCellCoord) : CellStore :=
  directionList.foldl (fun g2 d => informOne fill g2 c d) g

/-- getAdjacentLikeRegionIds (source lines 470-477): the distinct region ids
of same-fill neighbors, in insertion order north, east, south, west. -/
def getAdjacentLikeRegionIds (g : CellStore) (fill : String) (c : GridCellCoord) : List Nat :=
  directionList.foldl
    (fun acc d =>
      match getCell g (neighborCoord c d) with
      | some n =>
          if n.fillStyle = fill then
            (if n.regionId ∈ acc then acc else acc ++ [n.regionId])
          else acc
      | none => acc)
    []

/-- The update closure passed by setIdForRegion to floodFill: overwrite the
region id of the cell at c, then informAdjacentNeighbors for it (updateCell,
source lines 425-431). -/
def floodUpdate (fill : String) (newId : Nat) (g : CellStore) (c : GridCellCoord) : CellStore :=
  match getCell g c with
  | none => g
  | some cell =>
      informAdjacentNeighbors fill (updateStore g c { cell with regionId := newId }) c

/-- The recursive visitCell of floodFill (source lines 529-553), with an
explicit fuel parameter.  The traversal is guarded by the visited set only:
it recurses into every existing neighbor, whatever its color; the color
condition (fillStyle equal to the fill of the start cell) only gates the
region-id update.  A call on an unstored coordinate returns unchanged (the
source can only ever be called with an existing cell object, and it guards
each recursion with an existence check on the neighbor; folding that guard
into the callee gives the same result). -/
def floodVisit (fill startColor : String) (newId : Nat) :
    Nat → CellStore × List GridCellCoord → GridCellCoord → CellStore × List GridCellCoord
  | 0, p, _ => p
  | fuel + 1, p, c =>
    if c ∈ p.2 then p
    else
      match getCell p.1 c with
      | none => p
      | some cell =>
          let g1 := if cell.fillStyle = startColor then floodUpdate fill newId p.1 c else p.1
          directionList.foldl
            (fun q d => floodVisit fill startColor newId fuel q (neighborCoord c d))
            (g1, c :: p.2)

/-- setIdForRegion (source lines 556-561): flood fill from the start cell,
updating every visited cell whose fill equals the start fill to the region
id of the start cell.  The commented-out cleave handling of the source is
not executed and is not embedded. -/
def setIdForRegion (fill : String) (g : CellStore) (start : GridCellCoord) : CellStore :=
  match getCell g start with
  | none => g
  | some startCell =>
      (floodVisit fill startCell.fillStyle startCell.regionId (g.length + 1) (g, []) start).1

structure CanvasState where
  cellData : CellStore
  fillStyle : String
  nextRegionId : Nat
  shouldRender : Bool
  deriving DecidableEq, Repr

/-- shouldPaintCell (source lines 590-595): paint unless the stored cell at
the coordinate already has the active fill style. -/
def shouldPaintCell (s : CanvasState) (c : GridCellCoord) : Bool :=
  decide (¬ (getCell s.cellData c).map GridCell.fillStyle = some s.fillStyle)

/-- paintCell (source lines 597-627). -/
def paintCell (s : CanvasState) (c : GridCellCoord) : CanvasState :=
  if shouldPaintCell s c then
    let adjacentLikeRegionIds := getAdjacentLikeRegionIds s.cellData s.fillStyle c
    let regionId := adjacentLikeRegionIds.head?.getD s.nextRegionId
    let nextRegionId :=
      if adjacentLikeRegionIds.head?.isSome then s.nextRegionId else s.nextRegionId + 1
    let mask := makeAdjacencyMask s.cellData s.fillStyle c
    let cell : GridCell := { fillStyle := s.fillStyle, adjacency := mask, regionId := regionId }
    let g1 := setCellStore s.cellData c cell
    let g2 := informAdjacentNeighbors s.fillStyle g1 c
    let g3 := setIdForRegion s.fillStyle g2 c
    { cellData := g3, fillStyle := s.fillStyle, nextRegionId := nextRegionId,
      shouldRender := true }
  else s

/-- setFillStyle (source lines 686-688). -/
def setFillStyle (s : CanvasState) (color : String) : CanvasState :=
  { s with fillStyle := color }

/-- The cell record constructed by paintCell before storing. -/
def paintedCell (s : CanvasState) (c : GridCellCoord) : GridCell :=
  { fillStyle := s.fillStyle
    adjacency := makeAdjacencyMask s.cellData s.fillStyle c
    regionId :=
      (getAdjacentLikeRegionIds s.cellData s.fillStyle c).head?.getD s.nextRegionId }

/-- The initial engine state: empty store, fill style colors.red, region
counter 0. -/
def initialState : CanvasState :=
  { cellData := [], fillStyle := "indianred", nextRegionId := 0, shouldRender := true }

/-- States reachable from the empty grid by setFillStyle and paintCell. -/
inductive Reachable : CanvasState → Prop where
  | init : Reachable initialState
  | fill {s : CanvasState} (color : String) : Reachable s → Reachable (setFillStyle s color)
  | paint {s : CanvasState} (c : GridCellCoord) : Reachable s → Reachable (paintCell s c)

/-- Connectivity through stored cells: the flood-fill traversal relation.
Each step moves to an existing neighbor, whatever its color. -/
inductive ReachStored (g : CellStore) (a : GridCellCoord) : GridCellCoord → Prop where
  | refl : ReachStored g a a
  | step {x : GridCellCoord} (d : Direction) :
      ReachStored g a x → (getCell g (neighborCoord x d)).isSome →
      ReachStored g a (neighborCoord x d)

/-- Connectivity through stored cells of one given fill: membership in the
connected same-colored component of the start coordinate. -/
inductive LikeReach (g : CellStore) (fill : String) : GridCellCoord → GridCellCoord → Prop where
  | refl {a : GridCellCoord} {cell : GridCell} :
      getCell g a = some cell → cell.fillStyle = fill → LikeReach g fill a a
  | step {a x : GridCellCoord} (d : Direction) {cell : GridCell} :
      LikeReach g fill a x → getCell g (neighborCoord x d) = some cell →
      cell.fillStyle = fill → LikeReach g fill a (neighborCoord x d)

/-- The adjacency-mask invariant of the spec: the bit of a stored cell in
direction d is set precisely when the neighbor in direction d exists and has
the same fill, and masks stay four-bit values. -/
def AdjacencyInv (g : CellStore) : Prop :=
  ∀ c cell, getCell g c = some cell →
    cell.adjacency < 16 ∧
    ∀ d : Direction,
      (cell.adjacency &&& cardinalBit d = cardinalBit d ↔
        ∃ n, getCell g (neighborCoord c d) = some n ∧ n.fillStyle = cell.fillStyle)

/-- Keys of the store. -/
def storeKeys (g : CellStore) : List GridCellCoord := g.map Prod.fst

/-- The color view of the store: keys with fill styles (regions and masks
erased). -/
def colorView (g : CellStore) : List (GridCellCoord × String) :=
  g.map (fun p => (p.1, p.2.fillStyle))

/-- The render view of the store: keys with fill styles and masks (region
ids erased). -/
def maskView (g : CellStore) : List (GridCellCoord × String × Nat) :=
  g.map (fun p => (p.1, p.2.fillStyle, p.2.adjacency))

/-- The number of stored coordinates outside the visited set: the fuel
measure of the flood fill. -/
def keysLeft (g : CellStore) (visited : List GridCellCoord) : Nat :=
  ((storeKeys g).filter (fun k => decide (¬ k ∈ visited))).length

/-! ### Transform lemmas and claims C5-C8 -/

lemma minScale_pos : (0 : ℚ) < minScale := by norm_num [minScale]

lemma handleWheel_scale_eq (v : ViewState) (rect : XYCoord) (cx cy dy : ℚ)
    (hs : v.transform.scale ≠ 0) :
    (handleWheel v rect cx cy dy).transform.scale =
      max minScale (min (v.transform.scale + -1 * dy / 320) maxScale) := by
  simp only [handleWheel]
  rw [← mul_div_assoc, mul_div_cancel_left₀ _ hs]

/-- Claim C5, as stated, is false on the code: with scale 2 and viewport
delta (2, 0), the pan offset does not change by 2 / 2 = 1 (it changes by
2: the world-space translation by movement / scale composes with the
scale back into a device-space pan change of exactly the movement). -/
theorem C5_counterexample :
    ¬ ((handlePan ⟨⟨2, 0, 0⟩, false⟩ 2 0).transform.panX = 0 + 2 / 2) := by
  norm_num [handlePan]

/-- Claim C5 (amended): for every transform state with nonzero scale and
every pan with viewport-space delta (dx, dy), the pan offset changes by
exactly (dx, dy) — the translate call is by (dx / s, dy / s) in world
units, which the current scale multiplies back to (dx, dy) — the scale is
unchanged, and the view is marked dirty, unconditionally. -/
theorem C5_pan_moves_offset_by_delta (v : ViewState) (dx dy : ℚ)
    (h : v.transform.scale ≠ 0) :
    (handlePan v dx dy).transform.panX = v.transform.panX + dx ∧
    (handlePan v dx dy).transform.panY = v.transform.panY + dy ∧
    (handlePan v dx dy).transform.scale = v.transform.scale ∧
    (handlePan v dx dy).shouldRender = true := by
  refine ⟨?_, ?_, rfl, rfl⟩ <;>
    · simp only [handlePan]
      rw [← mul_div_assoc, mul_div_cancel_left₀ _ h]

theorem C5_witness :
    (handlePan ⟨⟨2, 3, 4⟩, false⟩ 6 8).transform.panX = 3 + 6 ∧
    (handlePan ⟨⟨2, 3, 4⟩, false⟩ 6 8).transform.panY = 4 + 8 ∧
    (handlePan ⟨⟨2, 3, 4⟩, false⟩ 6 8).transform.scale = 2 ∧
    (handlePan ⟨⟨2, 3, 4⟩, false⟩ 6 8).shouldRender = true :=
  C5_pan_moves_offset_by_delta ⟨⟨2, 3, 4⟩, false⟩ 6 8 (by norm_num)

/-- Claim C6: from any initial scale within [minScale, maxScale], the scale
stays within [minScale, maxScale] after processing any finite sequence of
wheel events, whatever the deltaY magnitudes and signs (every intermediate
state is itself the fold over a prefix, so every intermediate scale is in
bounds as well). -/
theorem C6_scale_stays_clamped (v : ViewState)
    (h1 : minScale ≤ v.transform.scale) (h2 : v.transform.scale ≤ maxScale)
    (evs : List WheelEvent) :
    minScale ≤ (evs.foldl wheelStep v).transform.scale ∧
      (evs.foldl wheelStep v).transform.scale ≤ maxScale := by
  induction evs generalizing v with
  | nil => exact ⟨h1, h2⟩
  | cons e rest ih =>
      have hs : v.transform.scale ≠ 0 := ne_of_gt (lt_of_lt_of_le minScale_pos h1)
      have hstep := handleWheel_scale_eq v ⟨e.rectX, e.rectY⟩ e.clientX e.clientY e.deltaY hs
      refine ih (wheelStep v e) ?_ ?_
      · rw [wheelStep, hstep]; exact le_max_left _ _
      · rw [wheelStep, hstep]
        exact max_le (by norm_num [minScale, maxScale]) (min_le_right _ _)

theorem C6_witness :
    minScale ≤ (([⟨0, 0, 0, 0, -3200⟩, ⟨0, 0, 5, 5, 3200⟩] : List WheelEvent).foldl
        wheelStep ⟨⟨1, 0, 0⟩, false⟩).transform.scale ∧
    (([⟨0, 0, 0, 0, -3200⟩, ⟨0, 0, 5, 5, 3200⟩] : List WheelEvent).foldl
        wheelStep ⟨⟨1, 0, 0⟩, false⟩).transform.scale ≤ maxScale :=
  C6_scale_stays_clamped ⟨⟨1, 0, 0⟩, false⟩ (by norm_num [minScale])
    (by norm_num [maxScale]) _

/-- Claim C7: for every transform state and wheel event at viewport point p,
the world point under p computed from the pre-zoom transform has the same
image under the post-zoom transform as under the pre-zoom transform: the
world point under the cursor stays fixed on screen. -/
theorem C7_zoom_fixes_cursor_point (v : ViewState) (rect : XYCoord) (cx cy dy : ℚ) :
    applyTransform (handleWheel v rect cx cy dy).transform
        (viewportToWorld v.transform rect ⟨cx, cy⟩) =
      applyTransform v.transform (viewportToWorld v.transform rect ⟨cx, cy⟩) := by
  simp only [handleWheel, applyTransform, viewportToWorld, canvasToWorld, XYCoord.mk.injEq]
  constructor <;> ring

/-- Claim C8: for every transform state with scale in bounds and every
point p, converting p to world space and back to viewport space returns p
exactly (over exact rational arithmetic). -/
theorem C8_viewport_world_roundtrip (t : Transform) (rect p : XYCoord)
    (h1 : minScale ≤ t.scale) (h2 : t.scale ≤ maxScale) :
    worldToViewport t rect (viewportToWorld t rect p) = p := by
  have hs : t.scale ≠ 0 := ne_of_gt (lt_of_lt_of_le minScale_pos h1)
  cases p with
  | mk px py =>
      simp only [worldToViewport, viewportToWorld, canvasToWorld, XYCoord.mk.injEq]
      constructor <;> · field_simp

theorem C8_witness :
    worldToViewport ⟨2, 5, 7⟩ ⟨1, 2⟩ (viewportToWorld ⟨2, 5, 7⟩ ⟨1, 2⟩ ⟨3, 4⟩) = ⟨3, 4⟩ :=
  C8_viewport_world_roundtrip ⟨2, 5, 7⟩ ⟨1, 2⟩ ⟨3, 4⟩ (by norm_num [minScale])
    (by norm_num [maxScale])

/-! ### Store lookup lemmas -/

lemma getCell_cons (p : GridCellCoord × GridCell) (rest : CellStore) (x : GridCellCoord) :
    getCell (p :: rest) x = if p.1 = x then some p.2 else getCell rest x := rfl

lemma updateStore_cons (p : GridCellCoord × GridCell) (rest : CellStore)
    (c : GridCellCoord) (cell : GridCell) :
    updateStore (p :: rest) c cell =
      (if p.1 = c then (p.1, cell) else p) :: updateStore rest c cell := rfl

lemma getCell_updateStore (g : CellStore) (c x : GridCellCoord) (cell : GridCell) :
    getCell (updateStore g c cell) x =
      if x = c then (getCell g c).map (fun _ => cell) else getCell g x := by
  induction g with
  | nil =>
      simp only [updateStore, List.map_nil, getCell, Option.map_none]
      split <;> rfl
  | cons p rest ih =>
      rw [updateStore_cons]
      by_cases hpc : p.1 = c
      · by_cases hxc : x = c
        · subst hxc
          simp [getCell_cons, hpc]
        · have hpx : ¬ p.1 = x := fun h => hxc (hpc.symm.trans h).symm
          have hcx : ¬ c = x := fun h => hxc h.symm
          simp [getCell_cons, hpc, hpx, hxc, hcx, ih]
      · by_cases hpx : p.1 = x
        · have hxc : ¬ x = c := fun h => hpc (hpx.trans h)
          simp [getCell_cons, hpc, hpx, hxc]
        · simp [getCell_cons, hpc, hpx, ih]

lemma getCell_append_single (g : CellStore) (c x : GridCellCoord) (cell : GridCell)
    (h : getCell g c = none) :
    getCell (g ++ [(c, cell)]) x = if x = c then some cell else getCell g x := by
  induction g with
  | nil =>
      rw [List.nil_append, getCell_cons]
      by_cases hxc : x = c
      · rw [if_pos hxc.symm, if_pos hxc]
      · rw [if_neg (fun h2 => hxc h2.symm), if_neg hxc]
  | cons p rest ih =>
      rw [getCell_cons] at h
      by_cases hpc : p.1 = c
      · rw [if_pos hpc] at h
        exact absurd h (by simp)
      · rw [if_neg hpc] at h
        rw [List.cons_append, getCell_cons, getCell_cons]
        by_cases hpx : p.1 = x
        · have hxc : ¬ x = c := fun h2 => hpc (hpx.trans h2)
          rw [if_pos hpx, if_neg hxc, if_pos hpx]
        · rw [if_neg hpx, if_neg hpx, ih h]

lemma getCell_setCellStore (g : CellStore) (c x : GridCellCoord) (cell : GridCell) :
    getCell (setCellStore g c cell) x = if x = c then some cell else getCell g x := by
  by_cases hc : (getCell g c).isSome
  · obtain ⟨old, hold⟩ := Option.isSome_iff_exists.mp hc
    rw [setCellStore, if_pos hc, getCell_updateStore, hold]
    split <;> rfl
  · have hnone : getCell g c = none := Option.not_isSome_iff_eq_none.mp hc
    rw [setCellStore, if_neg hc, getCell_append_single g c x cell hnone]

lemma storeKeys_updateStore (g : CellStore) (c : GridCellCoord) (cell : GridCell) :
    storeKeys (updateStore g c cell) = storeKeys g := by
  induction g with
  | nil => rfl
  | cons p rest ih =>
      simp only [updateStore, storeKeys, List.map_cons] at *
      by_cases hpc : p.1 = c
      · rw [if_pos hpc]; exact congrArg _ ih
      · rw [if_neg hpc]; exact congrArg _ ih

lemma getCell_isSome_iff_mem (g : CellStore) (x : GridCellCoord) :
    (getCell g x).isSome ↔ x ∈ storeKeys g := by
  induction g with
  | nil => simp [getCell, storeKeys]
  | cons p rest ih =>
      simp only [getCell, storeKeys, List.map_cons, List.mem_cons]
      by_cases hpx : p.1 = x
      · simp [hpx]
      · simp only [if_neg hpx]
        rw [ih]
        simp only [storeKeys]
        constructor
        · exact Or.inr
        · rintro (h | h)
          · exact absurd h.symm hpx
          · exact h

lemma getCell_none_iff (g : CellStore) (x : GridCellCoord) :
    getCell g x = none ↔ ¬ x ∈ storeKeys g := by
  rw [← getCell_isSome_iff_mem, Option.not_isSome_iff_eq_none]

lemma storeKeys_setCellStore_isSome (g : CellStore) (c : GridCellCoord) (cell : GridCell)
    (h : (getCell g c).isSome) :
    storeKeys (setCellStore g c cell) = storeKeys g := by
  rw [setCellStore, if_pos h, storeKeys_updateStore]

lemma storeKeys_setCellStore_none (g : CellStore) (c : GridCellCoord) (cell : GridCell)
    (h : getCell g c = none) :
    storeKeys (setCellStore g c cell) = storeKeys g ++ [c] := by
  rw [setCellStore, if_neg (by simp [h]), storeKeys, List.map_append]
  rfl

/-! ### Coordinate arithmetic lemmas -/

lemma opposite_opposite (d : Direction) : opposite (opposite d) = d := by
  cases d <;> rfl

lemma neighborCoord_ne (c : GridCellCoord) (d : Direction) : neighborCoord c d ≠ c := by
  obtain ⟨r, co⟩ := c
  cases d <;> (intro h; simp only [neighborCoord, Prod.mk.injEq] at h; omega)

lemma neighborCoord_opposite (c : GridCellCoord) (d : Direction) :
    neighborCoord (neighborCoord c d) (opposite d) = c := by
  obtain ⟨r, co⟩ := c
  cases d <;> simp [neighborCoord, opposite, Prod.ext_iff]

lemma neighborCoord_eq_iff (x c : GridCellCoord) (d : Direction) :
    neighborCoord x d = c ↔ x = neighborCoord c (opposite d) := by
  constructor
  · rintro rfl
    exact (neighborCoord_opposite x d).symm
  · rintro rfl
    have h := neighborCoord_opposite c (opposite d)
    rw [opposite_opposite] at h
    exact h

lemma neighborCoord_injective (c : GridCellCoord) {d d' : Direction}
    (h : neighborCoord c d = neighborCoord c d') : d = d' := by
  obtain ⟨r, co⟩ := c
  cases d <;> cases d' <;>
    first
      | rfl
      | (exfalso; simp only [neighborCoord, Prod.mk.injEq] at h; omega)

/-! ### Mask bit lemmas -/

lemma cardinalBit_lt (d : Direction) : cardinalBit d < 16 := by cases d <;> decide

lemma maskOfBools_lt (f : Direction → Bool) : maskOfBools f < 16 := by
  revert f; decide

lemma maskOfBools_and (f : Direction → Bool) (d : Direction) :
    (maskOfBools f &&& cardinalBit d = cardinalBit d) ↔ f d = true := by
  revert f d; decide

lemma setMaskBit_lt {m : Nat} (hm : m < 16) (d : Direction) :
    setMaskBit m (cardinalBit d) < 16 := by
  interval_cases m <;> cases d <;> decide

lemma unsetMaskBit_lt {m : Nat} (hm : m < 16) (d : Direction) :
    unsetMaskBit m (cardinalBit d) < 16 := by
  interval_cases m <;> cases d <;> decide

lemma setMaskBit_and {m : Nat} (hm : m < 16) (d d' : Direction) :
    (setMaskBit m (cardinalBit d) &&& cardinalBit d' = cardinalBit d') ↔
      (d = d' ∨ m &&& cardinalBit d' = cardinalBit d') := by
  interval_cases m <;> cases d <;> cases d' <;> decide

lemma unsetMaskBit_and {m : Nat} (hm : m < 16) (d d' : Direction) :
    (unsetMaskBit m (cardinalBit d) &&& cardinalBit d' = cardinalBit d') ↔
      (¬ d = d' ∧ m &&& cardinalBit d' = cardinalBit d') := by
  interval_cases m <;> cases d <;> cases d' <;> decide

lemma setMaskBit_id {m : Nat} (hm : m < 16) (d : Direction)
    (h : m &&& cardinalBit d = cardinalBit d) : setMaskBit m (cardinalBit d) = m := by
  interval_cases m <;> cases d <;> revert h <;> decide

lemma unsetMaskBit_id {m : Nat} (hm : m < 16) (d : Direction)
    (h : ¬ m &&& cardinalBit d = cardinalBit d) : unsetMaskBit m (cardinalBit d) = m := by
  interval_cases m <;> cases d <;> revert h <;> decide

/-! ### Inform and flood-update pointwise lemmas -/

lemma neighborCoord_ne_of_dir_ne (c : GridCellCoord) {d d' : Direction} (h : ¬ d = d') :
    ¬ neighborCoord c d = neighborCoord c d' :=
  fun he => h (neighborCoord_injective c he)

lemma getCell_informOne (fill : String) (g : CellStore) (c : GridCellCoord) (d : Direction)
    (y : GridCellCoord) :
    getCell (informOne fill g c d) y =
      if y = neighborCoord c d then (getCell g y).map (informAdjust fill d)
      else getCell g y := by
  cases hn : getCell g (neighborCoord c d) with
  | none =>
      simp only [informOne, hn]
      by_cases hy : y = neighborCoord c d
      · rw [if_pos hy, hy, hn]
        rfl
      · rw [if_neg hy]
  | some n =>
      simp only [informOne, hn]
      rw [getCell_updateStore]
      by_cases hy : y = neighborCoord c d
      · rw [if_pos hy, if_pos hy, hy, hn]
        rfl
      · rw [if_neg hy, if_neg hy]

lemma storeKeys_informOne (fill : String) (g : CellStore) (c : GridCellCoord) (d : Direction) :
    storeKeys (informOne fill g c d) = storeKeys g := by
  cases hn : getCell g (neighborCoord c d) with
  | none => simp only [informOne, hn]
  | some n =>
      simp only [informOne, hn]
      exact storeKeys_updateStore _ _ _

lemma getCell_informAdjacent_neighbor (fill : String) (g : CellStore) (c : GridCellCoord)
    (d : Direction) :
    getCell (informAdjacentNeighbors fill g c) (neighborCoord c d) =
      (getCell g (neighborCoord c d)).map (informAdjust fill d) := by
  simp only [informAdjacentNeighbors, directionList, List.foldl_cons, List.foldl_nil]
  cases d with
  | north =>
      rw [getCell_informOne, if_neg (neighborCoord_ne_of_dir_ne c (by decide)),
        getCell_informOne, if_neg (neighborCoord_ne_of_dir_ne c (by decide)),
        getCell_informOne, if_neg (neighborCoord_ne_of_dir_ne c (by decide)),
        getCell_informOne, if_pos rfl]
  | east =>
      rw [getCell_informOne, if_neg (neighborCoord_ne_of_dir_ne c (by decide)),
        getCell_informOne, if_neg (neighborCoord_ne_of_dir_ne c (by decide)),
        getCell_informOne, if_pos rfl, getCell_informOne,
        if_neg (neighborCoord_ne_of_dir_ne c (by decide))]
  | south =>
      rw [getCell_informOne, if_neg (neighborCoord_ne_of_dir_ne c (by decide)),
        getCell_informOne, if_pos rfl, getCell_informOne,
        if_neg (neighborCoord_ne_of_dir_ne c (by decide)), getCell_informOne,
        if_neg (neighborCoord_ne_of_dir_ne c (by decide))]
  | west =>
      rw [getCell_informOne, if_pos rfl, getCell_informOne,
        if_neg (neighborCoord_ne_of_dir_ne c (by decide)), getCell_informOne,
        if_neg (neighborCoord_ne_of_dir_ne c (by decide)), getCell_informOne,
        if_neg (neighborCoord_ne_of_dir_ne c (by decide))]

lemma getCell_informAdjacent_other (fill : String) (g : CellStore) (c : GridCellCoord)
    (y : GridCellCoord) (hy : ∀ d : Direction, ¬ y = neighborCoord c d) :
    getCell (informAdjacentNeighbors fill g c) y = getCell g y := by
  simp only [informAdjacentNeighbors, directionList, List.foldl_cons, List.foldl_nil]
  rw [getCell_informOne, if_neg (hy _), getCell_informOne, if_neg (hy _),
    getCell_informOne, if_neg (hy _), getCell_informOne, if_neg (hy _)]

lemma storeKeys_informAdjacent (fill : String) (g : CellStore) (c : GridCellCoord) :
    storeKeys (informAdjacentNeighbors fill g c) = storeKeys g := by
  simp only [informAdjacentNeighbors, directionList, List.foldl_cons, List.foldl_nil]
  rw [storeKeys_informOne, storeKeys_informOne, storeKeys_informOne, storeKeys_informOne]

lemma getCell_informAdjacent_self (fill : String) (g : CellStore) (c : GridCellCoord) :
    getCell (informAdjacentNeighbors fill g c) c = getCell g c :=
  getCell_informAdjacent_other fill g c c
    (fun d h => neighborCoord_ne c d h.symm)

/-- Pointwise fill-and-region view preservation: the inform pass touches
adjacency masks only. -/
lemma inform_fillRegion (fill : String) (g : CellStore) (c : GridCellCoord)
    (y : GridCellCoord) :
    (getCell (informAdjacentNeighbors fill g c) y).map (fun n => (n.fillStyle, n.regionId)) =
      (getCell g y).map (fun n => (n.fillStyle, n.regionId)) := by
  by_cases hy : ∃ d : Direction, y = neighborCoord c d
  · obtain ⟨d, rfl⟩ := hy
    rw [getCell_informAdjacent_neighbor]
    cases getCell g (neighborCoord c d) <;> rfl
  · push_neg at hy
    rw [getCell_informAdjacent_other fill g c y hy]

lemma option_fillRegion_fill {o o' : Option GridCell}
    (h : o.map (fun n => (n.fillStyle, n.regionId)) =
      o'.map (fun n => (n.fillStyle, n.regionId))) :
    o.map GridCell.fillStyle = o'.map GridCell.fillStyle := by
  cases o <;> cases o' <;> simp_all

lemma option_fillRegion_region {o o' : Option GridCell}
    (h : o.map (fun n => (n.fillStyle, n.regionId)) =
      o'.map (fun n => (n.fillStyle, n.regionId))) :
    o.map GridCell.regionId = o'.map GridCell.regionId := by
  cases o <;> cases o' <;> simp_all

lemma getCell_floodUpdate_fillRegion (fill : String) (nid : Nat) (g : CellStore)
    (c : GridCellCoord) (y : GridCellCoord) :
    (getCell (floodUpdate fill nid g c) y).map (fun n => (n.fillStyle, n.regionId)) =
      if y = c then (getCell g y).map (fun n => (n.fillStyle, nid))
      else (getCell g y).map (fun n => (n.fillStyle, n.regionId)) := by
  cases hc : getCell g c with
  | none =>
      simp only [floodUpdate, hc]
      by_cases hy : y = c
      · rw [if_pos hy, hy, hc]
        rfl
      · rw [if_neg hy]
  | some cell =>
      simp only [floodUpdate, hc]
      rw [inform_fillRegion, getCell_updateStore]
      by_cases hy : y = c
      · rw [if_pos hy, if_pos hy, hy, hc]
        rfl
      · rw [if_neg hy, if_neg hy]

lemma storeKeys_floodUpdate (fill : String) (nid : Nat) (g : CellStore) (c : GridCellCoord) :
    storeKeys (floodUpdate fill nid g c) = storeKeys g := by
  cases hc : getCell g c with
  | none => simp only [floodUpdate, hc]
  | some cell =>
      simp only [floodUpdate, hc]
      rw [storeKeys_informAdjacent, storeKeys_updateStore]

lemma option_fillRegionConst_fill {o o' : Option GridCell} {nid : Nat}
    (h : o.map (fun n => (n.fillStyle, n.regionId)) =
      o'.map (fun n => (n.fillStyle, nid))) :
    o.map GridCell.fillStyle = o'.map GridCell.fillStyle := by
  cases o <;> cases o' <;> simp_all

lemma getCell_floodUpdate_fill (fill : String) (nid : Nat) (g : CellStore)
    (c : GridCellCoord) (y : GridCellCoord) :
    (getCell (floodUpdate fill nid g c) y).map GridCell.fillStyle =
      (getCell g y).map GridCell.fillStyle := by
  have h := getCell_floodUpdate_fillRegion fill nid g c y
  by_cases hy : y = c
  · rw [if_pos hy] at h
    exact option_fillRegionConst_fill h
  · rw [if_neg hy] at h
    exact option_fillRegion_fill h

/-! ### Fuel measure lemmas -/

lemma filter_notMem_mono_length (K : List GridCellCoord) (v w : List GridCellCoord)
    (hvw : v ⊆ w) :
    (K.filter (fun k => decide (¬ k ∈ w))).length ≤
      (K.filter (fun k => decide (¬ k ∈ v))).length := by
  induction K with
  | nil => exact le_refl _
  | cons k K' ih =>
      rw [List.filter_cons, List.filter_cons]
      by_cases hw : k ∈ w
      · rw [if_neg (by simp [hw])]
        by_cases hv : k ∈ v
        · rw [if_neg (by simp [hv])]
          exact ih
        · rw [if_pos (by simp [hv])]
          exact le_trans ih (Nat.le_succ _)
      · have hv : ¬ k ∈ v := fun h => hw (hvw h)
        rw [if_pos (by simp [hw]), if_pos (by simp [hv])]
        exact Nat.succ_le_succ ih

lemma filter_notMem_cons_lt (K : List GridCellCoord) (v : List GridCellCoord)
    (c : GridCellCoord) (hc : c ∈ K) (hv : ¬ c ∈ v) :
    (K.filter (fun k => decide (¬ k ∈ c :: v))).length <
      (K.filter (fun k => decide (¬ k ∈ v))).length := by
  induction K with
  | nil => cases hc
  | cons k K' ih =>
      rw [List.filter_cons, List.filter_cons]
      by_cases hkc : k = c
      · subst hkc
        rw [if_neg (by simp), if_pos (by simp [hv]), List.length_cons]
        have hmono := filter_notMem_mono_length K' v (k :: v)
          (fun x hx => List.mem_cons_of_mem _ hx)
        omega
      · rcases List.mem_cons.mp hc with h | h
        · exact absurd h.symm hkc
        · by_cases hkv : k ∈ v
          · rw [if_neg (by simp [hkv]), if_neg (by simp [hkv])]
            exact ih h
          · rw [if_pos (by simp [hkv, hkc]), if_pos (by simp [hkv])]
            exact Nat.succ_lt_succ (ih h)

lemma keysLeft_le_length (g : CellStore) (v : List GridCellCoord) :
    keysLeft g v ≤ g.length := by
  have h1 : keysLeft g v ≤ (storeKeys g).length := List.length_filter_le _ _
  rw [storeKeys, List.length_map] at h1
  exact h1

lemma keysLeft_congr {g g' : CellStore} (v : List GridCellCoord)
    (h : storeKeys g' = storeKeys g) : keysLeft g' v = keysLeft g v := by
  unfold keysLeft
  rw [h]

lemma keysLeft_mono {g : CellStore} {v w : List GridCellCoord} (hvw : v ⊆ w) :
    keysLeft g w ≤ keysLeft g v :=
  filter_notMem_mono_length (storeKeys g) v w hvw

lemma keysLeft_cons_lt {g : CellStore} {v : List GridCellCoord} {c : GridCellCoord}
    (hc : c ∈ storeKeys g) (hv : ¬ c ∈ v) : keysLeft g (c :: v) < keysLeft g v :=
  filter_notMem_cons_lt (storeKeys g) v c hc hv

/-! ### Flood-fill traversal lemmas -/

lemma floodVisit_visited_mono (fill sc : String) (nid : Nat) :
    ∀ (fuel : Nat) (p : CellStore × List GridCellCoord) (c : GridCellCoord),
      p.2 ⊆ (floodVisit fill sc nid fuel p c).2 := by
  intro fuel
  induction fuel with
  | zero => intro p c; exact fun x hx => hx
  | succ fuel ih =>
      intro p c
      by_cases hc : c ∈ p.2
      · simp [floodVisit, hc]
      · cases hg : getCell p.1 c with
        | none => simp [floodVisit, hc, hg]
        | some cell =>
            have aux : ∀ (ds : List Direction) (q : CellStore × List GridCellCoord),
                q.2 ⊆ (List.foldl
                  (fun q d => floodVisit fill sc nid fuel q (neighborCoord c d)) q ds).2 := by
              intro ds
              induction ds with
              | nil => intro q; exact fun x hx => hx
              | cons d rest ihds =>
                  intro q
                  rw [List.foldl_cons]
                  exact fun x hx => ihds _ (ih q (neighborCoord c d) hx)
            simp only [floodVisit, if_neg hc, hg]
            exact fun x hx => aux directionList
              ((if cell.fillStyle = sc then floodUpdate fill nid p.1 c else p.1), c :: p.2)
              (List.mem_cons_of_mem c hx)

lemma floodFold_visited_mono (fill sc : String) (nid : Nat) (fuel : Nat) (c : GridCellCoord)
    (ds : List Direction) (q : CellStore × List GridCellCoord) :
    q.2 ⊆ (List.foldl (fun q d => floodVisit fill sc nid fuel q (neighborCoord c d)) q ds).2 := by
  induction ds generalizing q with
  | nil => exact fun x hx => hx
  | cons d rest ihds =>
      rw [List.foldl_cons]
      exact fun x hx => ihds _ (floodVisit_visited_mono fill sc nid fuel q (neighborCoord c d) hx)

lemma floodVisit_storeKeys (fill sc : String) (nid : Nat) :
    ∀ (fuel : Nat) (p : CellStore × List GridCellCoord) (c : GridCellCoord),
      storeKeys (floodVisit fill sc nid fuel p c).1 = storeKeys p.1 := by
  intro fuel
  induction fuel with
  | zero => intro p c; rfl
  | succ fuel ih =>
      intro p c
      by_cases hc : c ∈ p.2
      · simp [floodVisit, hc]
      · cases hg : getCell p.1 c with
        | none => simp [floodVisit, hc, hg]
        | some cell =>
            have aux : ∀ (ds : List Direction) (q : CellStore × List GridCellCoord),
                storeKeys (List.foldl
                  (fun q d => floodVisit fill sc nid fuel q (neighborCoord c d)) q ds).1 =
                  storeKeys q.1 := by
              intro ds
              induction ds with
              | nil => intro q; rfl
              | cons d rest ihds =>
                  intro q
                  rw [List.foldl_cons, ihds, ih]
            simp only [floodVisit, if_neg hc, hg]
            rw [aux directionList
              ((if cell.fillStyle = sc then floodUpdate fill nid p.1 c else p.1), c :: p.2)]
            by_cases hf : cell.fillStyle = sc
            · rw [if_pos hf]
              exact storeKeys_floodUpdate fill nid p.1 c
            · rw [if_neg hf]

lemma floodFold_storeKeys (fill sc : String) (nid : Nat) (fuel : Nat) (c : GridCellCoord)
    (ds : List Direction) (q : CellStore × List GridCellCoord) :
    storeKeys (List.foldl (fun q d => floodVisit fill sc nid fuel q (neighborCoord c d)) q ds).1 =
      storeKeys q.1 := by
  induction ds generalizing q with
  | nil => rfl
  | cons d rest ihds =>
      rw [List.foldl_cons, ihds, floodVisit_storeKeys]

lemma floodVisit_fill (fill sc : String) (nid : Nat) :
    ∀ (fuel : Nat) (p : CellStore × List GridCellCoord) (c : GridCellCoord)
      (y : GridCellCoord),
      (getCell (floodVisit fill sc nid fuel p c).1 y).map GridCell.fillStyle =
        (getCell p.1 y).map GridCell.fillStyle := by
  intro fuel
  induction fuel with
  | zero => intro p c y; rfl
  | succ fuel ih =>
      intro p c y
      by_cases hc : c ∈ p.2
      · simp [floodVisit, hc]
      · cases hg : getCell p.1 c with
        | none => simp [floodVisit, hc, hg]
        | some cell =>
            have aux : ∀ (ds : List Direction) (q : CellStore × List GridCellCoord),
                (getCell (List.foldl
                  (fun q d => floodVisit fill sc nid fuel q (neighborCoord c d)) q ds).1 y).map
                    GridCell.fillStyle =
                  (getCell q.1 y).map GridCell.fillStyle := by
              intro ds
              induction ds with
              | nil => intro q; rfl
              | cons d rest ihds =>
                  intro q
                  rw [List.foldl_cons, ihds, ih]
            simp only [floodVisit, if_neg hc, hg]
            rw [aux directionList
              ((if cell.fillStyle = sc then floodUpdate fill nid p.1 c else p.1), c :: p.2)]
            by_cases hf : cell.fillStyle = sc
            · rw [if_pos hf]
              exact getCell_floodUpdate_fill fill nid p.1 c y
            · rw [if_neg hf]

lemma floodFold_fill (fill sc : String) (nid : Nat) (fuel : Nat) (c : GridCellCoord)
    (ds : List Direction) (q : CellStore × List GridCellCoord) (y : GridCellCoord) :
    (getCell (List.foldl
      (fun q d => floodVisit fill sc nid fuel q (neighborCoord c d)) q ds).1 y).map
        GridCell.fillStyle = (getCell q.1 y).map GridCell.fillStyle := by
  induction ds generalizing q with
  | nil => rfl
  | cons d rest ihds =>
      rw [List.foldl_cons, ihds, floodVisit_fill]

lemma floodVisit_keysLeft_le (fill sc : String) (nid : Nat) (fuel : Nat)
    (p : CellStore × List GridCellCoord) (c : GridCellCoord) :
    keysLeft (floodVisit fill sc nid fuel p c).1 (floodVisit fill sc nid fuel p c).2 ≤
      keysLeft p.1 p.2 := by
  rw [keysLeft_congr _ (floodVisit_storeKeys fill sc nid fuel p c)]
  exact keysLeft_mono (floodVisit_visited_mono fill sc nid fuel p c)

lemma floodVisit_fuel_succ (fill sc : String) (nid : Nat) :
    ∀ (fuel : Nat) (p : CellStore × List GridCellCoord) (c : GridCellCoord),
      keysLeft p.1 p.2 < fuel →
      floodVisit fill sc nid (fuel + 1) p c = floodVisit fill sc nid fuel p c := by
  intro fuel
  induction fuel with
  | zero => intro p c h; cases h
  | succ fuel ih =>
      intro p c h
      by_cases hc : c ∈ p.2
      · simp [floodVisit, hc]
      · cases hg : getCell p.1 c with
        | none => simp [floodVisit, hc, hg]
        | some cell =>
            have hmem : c ∈ storeKeys p.1 :=
              (getCell_isSome_iff_mem p.1 c).mp (by rw [hg]; rfl)
            have hlt : keysLeft p.1 (c :: p.2) < fuel :=
              lt_of_lt_of_le (keysLeft_cons_lt hmem hc) (Nat.lt_succ_iff.mp h)
            have aux : ∀ (ds : List Direction) (q : CellStore × List GridCellCoord),
                keysLeft q.1 q.2 < fuel →
                List.foldl (fun q d => floodVisit fill sc nid (fuel + 1) q (neighborCoord c d))
                    q ds =
                  List.foldl (fun q d => floodVisit fill sc nid fuel q (neighborCoord c d))
                    q ds := by
              intro ds
              induction ds with
              | nil => intro q hq; rfl
              | cons d rest ihds =>
                  intro q hq
                  rw [List.foldl_cons, List.foldl_cons, ih q (neighborCoord c d) hq]
                  exact ihds _ (lt_of_le_of_lt
                    (floodVisit_keysLeft_le fill sc nid fuel q (neighborCoord c d)) hq)
            have hkey : ∀ g1 : CellStore, storeKeys g1 = storeKeys p.1 →
                keysLeft g1 (c :: p.2) < fuel := by
              intro g1 hg1
              rw [keysLeft_congr _ hg1]
              exact hlt
            conv_lhs => rw [floodVisit]
            conv_rhs => rw [floodVisit]
            rw [if_neg hc, if_neg hc]
            simp only [hg]
            by_cases hf : cell.fillStyle = sc
            · rw [if_pos hf]
              exact aux directionList _
                (hkey _ (storeKeys_floodUpdate fill nid p.1 c))
            · rw [if_neg hf]
              exact aux directionList _ (hkey _ rfl)

lemma floodVisit_fuel_ge (fill sc : String) (nid : Nat) (fuel fuel2 : Nat)
    (p : CellStore × List GridCellCoord) (c : GridCellCoord)
    (h : keysLeft p.1 p.2 < fuel) (hle : fuel ≤ fuel2) :
    floodVisit fill sc nid fuel2 p c = floodVisit fill sc nid fuel p c := by
  induction fuel2, hle using Nat.le_induction with
  | base => rfl
  | succ n hn ihn =>
      rw [floodVisit_fuel_succ fill sc nid n p c (lt_of_lt_of_le h hn), ihn]

lemma floodVisit_start_mem (fill sc : String) (nid : Nat) (fuel : Nat)
    (p : CellStore × List GridCellCoord) (c : GridCellCoord)
    (hfuel : keysLeft p.1 p.2 < fuel)
    (hstored : (getCell p.1 c).isSome ∨ c ∈ p.2) :
    c ∈ (floodVisit fill sc nid fuel p c).2 := by
  cases fuel with
  | zero => cases hfuel
  | succ fuel =>
      by_cases hc : c ∈ p.2
      · simpa [floodVisit, hc] using hc
      · cases hg : getCell p.1 c with
        | none =>
            rcases hstored with hs | hs
            · rw [hg] at hs; cases hs
            · exact absurd hs hc
        | some cell =>
            simp only [floodVisit, if_neg hc, hg]
            exact floodFold_visited_mono fill sc nid fuel c directionList
              ((if cell.fillStyle = sc then floodUpdate fill nid p.1 c else p.1), c :: p.2)
              (List.mem_cons_self c p.2)

lemma mem_directionList (d : Direction) : d ∈ directionList := by
  cases d <;> decide

/-- Completeness of the traversal: with sufficient fuel, every stored
neighbor of a newly visited cell is itself visited. -/
lemma floodVisit_closed (fill sc : String) (nid : Nat) :
    ∀ (fuel : Nat) (p : CellStore × List GridCellCoord) (c : GridCellCoord),
      keysLeft p.1 p.2 < fuel →
      ∀ x, x ∈ (floodVisit fill sc nid fuel p c).2 → ¬ x ∈ p.2 →
        ∀ d : Direction, (getCell p.1 (neighborCoord x d)).isSome →
          neighborCoord x d ∈ (floodVisit fill sc nid fuel p c).2 := by
  intro fuel
  induction fuel with
  | zero => intro p c h; cases h
  | succ fuel ih =>
      intro p c h x hx hxp d hd
      by_cases hc : c ∈ p.2
      · have hres : floodVisit fill sc nid (fuel + 1) p c = p := by simp [floodVisit, hc]
        rw [hres] at hx
        exact absurd hx hxp
      · cases hg : getCell p.1 c with
        | none =>
            have hres : floodVisit fill sc nid (fuel + 1) p c = p := by
              simp [floodVisit, hc, hg]
            rw [hres] at hx
            exact absurd hx hxp
        | some cell =>
            have hres : floodVisit fill sc nid (fuel + 1) p c =
                List.foldl (fun q d => floodVisit fill sc nid fuel q (neighborCoord c d))
                  ((if cell.fillStyle = sc then floodUpdate fill nid p.1 c else p.1), c :: p.2)
                  directionList := by
              simp only [floodVisit, if_neg hc, hg]
            have hmem : c ∈ storeKeys p.1 :=
              (getCell_isSome_iff_mem p.1 c).mp (by rw [hg]; rfl)
            have hkeys0 :
                storeKeys (if cell.fillStyle = sc then floodUpdate fill nid p.1 c else p.1) =
                  storeKeys p.1 := by
              split
              · exact storeKeys_floodUpdate fill nid p.1 c
              · rfl
            have hlt0 :
                keysLeft (if cell.fillStyle = sc then floodUpdate fill nid p.1 c else p.1)
                  (c :: p.2) < fuel := by
              rw [keysLeft_congr _ hkeys0]
              exact lt_of_lt_of_le (keysLeft_cons_lt hmem hc) (Nat.lt_succ_iff.mp h)
            have aux : ∀ (ds : List Direction) (q : CellStore × List GridCellCoord),
                storeKeys q.1 = storeKeys p.1 → keysLeft q.1 q.2 < fuel →
                (∀ z, z ∈ q.2 → ¬ z ∈ c :: p.2 →
                  ∀ d' : Direction, (getCell p.1 (neighborCoord z d')).isSome →
                    neighborCoord z d' ∈ q.2) →
                (∀ z, z ∈ (List.foldl
                    (fun q d => floodVisit fill sc nid fuel q (neighborCoord c d)) q ds).2 →
                  ¬ z ∈ c :: p.2 →
                  ∀ d' : Direction, (getCell p.1 (neighborCoord z d')).isSome →
                    neighborCoord z d' ∈ (List.foldl
                      (fun q d => floodVisit fill sc nid fuel q (neighborCoord c d)) q ds).2) ∧
                (∀ d'' : Direction, d'' ∈ ds →
                  (getCell p.1 (neighborCoord c d'')).isSome →
                    neighborCoord c d'' ∈ (List.foldl
                      (fun q d => floodVisit fill sc nid fuel q (neighborCoord c d)) q ds).2) := by
              intro ds
              induction ds with
              | nil =>
                  intro q hkeys hklt hGood
                  exact ⟨hGood, fun d'' hd'' => absurd hd'' (List.not_mem_nil d'')⟩
              | cons d0 rest ihds =>
                  intro q hkeys hklt hGood
                  rw [List.foldl_cons]
                  have hkeys' :
                      storeKeys (floodVisit fill sc nid fuel q (neighborCoord c d0)).1 =
                        storeKeys p.1 :=
                    (floodVisit_storeKeys fill sc nid fuel q (neighborCoord c d0)).trans hkeys
                  have hklt' :
                      keysLeft (floodVisit fill sc nid fuel q (neighborCoord c d0)).1
                        (floodVisit fill sc nid fuel q (neighborCoord c d0)).2 < fuel :=
                    lt_of_le_of_lt (floodVisit_keysLeft_le fill sc nid fuel q _) hklt
                  have hmono' : q.2 ⊆ (floodVisit fill sc nid fuel q (neighborCoord c d0)).2 :=
                    floodVisit_visited_mono fill sc nid fuel q (neighborCoord c d0)
                  have hGood' : ∀ z,
                      z ∈ (floodVisit fill sc nid fuel q (neighborCoord c d0)).2 →
                      ¬ z ∈ c :: p.2 →
                      ∀ d' : Direction, (getCell p.1 (neighborCoord z d')).isSome →
                        neighborCoord z d' ∈
                          (floodVisit fill sc nid fuel q (neighborCoord c d0)).2 := by
                    intro z hz hzcp d' hd'
                    by_cases hzq : z ∈ q.2
                    · exact hmono' (hGood z hzq hzcp d' hd')
                    · have hd'q : (getCell q.1 (neighborCoord z d')).isSome := by
                        rw [getCell_isSome_iff_mem, hkeys, ← getCell_isSome_iff_mem]
                        exact hd'
                      exact ih q (neighborCoord c d0) hklt z hz hzq d' hd'q
                  rcases ihds (floodVisit fill sc nid fuel q (neighborCoord c d0))
                    hkeys' hklt' hGood' with ⟨hG, hrest⟩
                  refine ⟨hG, ?_⟩
                  intro d'' hd'' hstored
                  rcases List.mem_cons.mp hd'' with heq | hmem_rest
                  · subst heq
                    have hstq : (getCell q.1 (neighborCoord c d'')).isSome := by
                      rw [getCell_isSome_iff_mem, hkeys, ← getCell_isSome_iff_mem]
                      exact hstored
                    have hin : neighborCoord c d'' ∈
                        (floodVisit fill sc nid fuel q (neighborCoord c d'')).2 :=
                      floodVisit_start_mem fill sc nid fuel q (neighborCoord c d'') hklt
                        (Or.inl hstq)
                    exact floodFold_visited_mono fill sc nid fuel c rest _ hin
                  · exact hrest d'' hmem_rest hstored
            rw [hres] at hx ⊢
            obtain ⟨hGoodFinal, hdirs⟩ := aux directionList
              ((if cell.fillStyle = sc then floodUpdate fill nid p.1 c else p.1), c :: p.2)
              hkeys0 hlt0 (fun z hz hzcp => absurd hz hzcp)
            by_cases hxc : x = c
            · subst hxc
              exact hdirs d (mem_directionList d) hd
            · refine hGoodFinal x hx ?_ d hd
              intro hmem2
              rcases List.mem_cons.mp hmem2 with h1 | h1
              · exact hxc h1
              · exact hxp h1

/-- Every visited cell whose fill equals the start color carries the new
region id in the resulting store, provided that already held on the initial
visited set. -/
lemma floodVisit_region_assigned (fill sc : String) (nid : Nat) :
    ∀ (fuel : Nat) (p : CellStore × List GridCellCoord) (c : GridCellCoord),
      (∀ x, x ∈ p.2 → ∀ cx, getCell p.1 x = some cx →
        cx.fillStyle = sc → cx.regionId = nid) →
      ∀ x, x ∈ (floodVisit fill sc nid fuel p c).2 →
        ∀ cx, getCell (floodVisit fill sc nid fuel p c).1 x = some cx →
          cx.fillStyle = sc → cx.regionId = nid := by
  intro fuel
  induction fuel with
  | zero => intro p c H; exact H
  | succ fuel ih =>
      intro p c H
      by_cases hc : c ∈ p.2
      · have hres : floodVisit fill sc nid (fuel + 1) p c = p := by simp [floodVisit, hc]
        rw [hres]
        exact H
      · cases hg : getCell p.1 c with
        | none =>
            have hres : floodVisit fill sc nid (fuel + 1) p c = p := by
              simp [floodVisit, hc, hg]
            rw [hres]
            exact H
        | some cell =>
            have hres : floodVisit fill sc nid (fuel + 1) p c =
                List.foldl (fun q d => floodVisit fill sc nid fuel q (neighborCoord c d))
                  ((if cell.fillStyle = sc then floodUpdate fill nid p.1 c else p.1), c :: p.2)
                  directionList := by
              simp only [floodVisit, if_neg hc, hg]
            rw [hres]
            have Hq0 : ∀ x, x ∈ c :: p.2 →
                ∀ cx, getCell
                    (if cell.fillStyle = sc then floodUpdate fill nid p.1 c else p.1) x =
                  some cx → cx.fillStyle = sc → cx.regionId = nid := by
              intro x hx cx hcx hfillx
              by_cases hf : cell.fillStyle = sc
              · rw [if_pos hf] at hcx
                have hpair := getCell_floodUpdate_fillRegion fill nid p.1 c x
                by_cases hxc : x = c
                · rw [if_pos hxc, hcx, hxc, hg] at hpair
                  simp at hpair
                  exact hpair.2
                · rw [if_neg hxc, hcx] at hpair
                  have hxp : x ∈ p.2 := by
                    rcases List.mem_cons.mp hx with h1 | h1
                    · exact absurd h1 hxc
                    · exact h1
                  cases ho : getCell p.1 x with
                  | none =>
                      rw [ho] at hpair
                      exact absurd hpair (by simp)
                  | some cx0 =>
                      rw [ho] at hpair
                      simp at hpair
                      have hr := H x hxp cx0 ho (hpair.1 ▸ hfillx)
                      exact hpair.2.trans hr
              · rw [if_neg hf] at hcx
                by_cases hxc : x = c
                · rw [hxc, hg] at hcx
                  injection hcx with h2
                  exact absurd (h2 ▸ hfillx) hf
                · have hxp : x ∈ p.2 := by
                    rcases List.mem_cons.mp hx with h1 | h1
                    · exact absurd h1 hxc
                    · exact h1
                  exact H x hxp cx hcx hfillx
            have aux : ∀ (ds : List Direction) (q : CellStore × List GridCellCoord),
                (∀ x, x ∈ q.2 → ∀ cx, getCell q.1 x = some cx →
                  cx.fillStyle = sc → cx.regionId = nid) →
                ∀ x, x ∈ (List.foldl
                    (fun q d => floodVisit fill sc nid fuel q (neighborCoord c d)) q ds).2 →
                  ∀ cx, getCell (List.foldl
                    (fun q d => floodVisit fill sc nid fuel q (neighborCoord c d)) q ds).1 x =
                      some cx → cx.fillStyle = sc → cx.regionId = nid := by
              intro ds
              induction ds with
              | nil => intro q Hq; exact Hq
              | cons d0 rest ihds =>
                  intro q Hq
                  rw [List.foldl_cons]
                  exact ihds _ (ih q (neighborCoord c d0) Hq)
            exact aux directionList _ Hq0

lemma floodVisit_visited_nodup (fill sc : String) (nid : Nat) :
    ∀ (fuel : Nat) (p : CellStore × List GridCellCoord) (c : GridCellCoord),
      p.2.Nodup → (floodVisit fill sc nid fuel p c).2.Nodup := by
  intro fuel
  induction fuel with
  | zero => intro p c h; exact h
  | succ fuel ih =>
      intro p c hnd
      by_cases hc : c ∈ p.2
      · have hres : floodVisit fill sc nid (fuel + 1) p c = p := by simp [floodVisit, hc]
        rw [hres]
        exact hnd
      · cases hg : getCell p.1 c with
        | none =>
            have hres : floodVisit fill sc nid (fuel + 1) p c = p := by
              simp [floodVisit, hc, hg]
            rw [hres]
            exact hnd
        | some cell =>
            have aux : ∀ (ds : List Direction) (q : CellStore × List GridCellCoord),
                q.2.Nodup →
                (List.foldl
                  (fun q d => floodVisit fill sc nid fuel q (neighborCoord c d)) q ds).2.Nodup := by
              intro ds
              induction ds with
              | nil => intro q hq; exact hq
              | cons d0 rest ihds =>
                  intro q hq
                  rw [List.foldl_cons]
                  exact ihds _ (ih q (neighborCoord c d0) hq)
            simp only [floodVisit, if_neg hc, hg]
            exact aux directionList _ (List.nodup_cons.mpr ⟨hc, hnd⟩)

/-! ### setIdForRegion and paintCell description lemmas -/

lemma setIdForRegion_fill (fill : String) (g : CellStore) (start y : GridCellCoord) :
    (getCell (setIdForRegion fill g start) y).map GridCell.fillStyle =
      (getCell g y).map GridCell.fillStyle := by
  cases hs : getCell g start with
  | none => simp only [setIdForRegion, hs]
  | some sc0 =>
      simp only [setIdForRegion, hs]
      exact floodVisit_fill fill sc0.fillStyle sc0.regionId (g.length + 1) (g, []) start y

lemma setIdForRegion_storeKeys (fill : String) (g : CellStore) (start : GridCellCoord) :
    storeKeys (setIdForRegion fill g start) = storeKeys g := by
  cases hs : getCell g start with
  | none => simp only [setIdForRegion, hs]
  | some sc0 =>
      simp only [setIdForRegion, hs]
      exact floodVisit_storeKeys fill sc0.fillStyle sc0.regionId (g.length + 1) (g, []) start

lemma paintCell_of_should (s : CanvasState) (c : GridCellCoord)
    (hp : shouldPaintCell s c = true) :
    paintCell s c =
      { cellData :=
          setIdForRegion s.fillStyle
            (informAdjacentNeighbors s.fillStyle
              (setCellStore s.cellData c (paintedCell s c)) c) c
        fillStyle := s.fillStyle
        nextRegionId :=
          if (getAdjacentLikeRegionIds s.cellData s.fillStyle c).head?.isSome then
            s.nextRegionId
          else s.nextRegionId + 1
        shouldRender := true } := by
  rw [paintCell, if_pos hp]
  rfl

lemma paintCell_of_not (s : CanvasState) (c : GridCellCoord)
    (hp : ¬ shouldPaintCell s c = true) :
    paintCell s c = s := by
  rw [paintCell, if_neg hp]

/-! ### The inform pass is the identity on stores satisfying the
adjacency invariant -/

lemma storeKeys_cons (p : GridCellCoord × GridCell) (rest : CellStore) :
    storeKeys (p :: rest) = p.1 :: storeKeys rest := rfl

lemma updateStore_not_mem (g : CellStore) (c : GridCellCoord) (cell : GridCell)
    (h : ¬ c ∈ storeKeys g) : updateStore g c cell = g := by
  induction g with
  | nil => rfl
  | cons p rest ih =>
      rw [storeKeys_cons] at h
      rw [updateStore_cons, if_neg (fun he => h (List.mem_cons.mpr (Or.inl he.symm))),
        ih (fun hm => h (List.mem_cons_of_mem _ hm))]

lemma updateStore_self (g : CellStore) (c : GridCellCoord) (n : GridCell)
    (hnd : (storeKeys g).Nodup) (h : getCell g c = some n) : updateStore g c n = g := by
  induction g with
  | nil => rfl
  | cons p rest ih =>
      rw [storeKeys_cons, List.nodup_cons] at hnd
      rw [getCell_cons] at h
      rw [updateStore_cons]
      by_cases hpc : p.1 = c
      · rw [if_pos hpc] at h ⊢
        injection h with h2
        have hcnot : ¬ c ∈ storeKeys rest := by
          rw [← hpc]
          exact hnd.1
        subst h2
        rw [Prod.mk.eta, updateStore_not_mem rest c p.2 hcnot]
      · rw [if_neg hpc] at h ⊢
        rw [ih hnd.2 h]

lemma informOne_id (fill : String) (g : CellStore) (x : GridCellCoord) (d : Direction)
    (hnd : (storeKeys g).Nodup) (hinv : AdjacencyInv g)
    {cx : GridCell} (hx : getCell g x = some cx) (hfx : cx.fillStyle = fill) :
    informOne fill g x d = g := by
  cases hn : getCell g (neighborCoord x d) with
  | none => simp only [informOne, hn]
  | some n =>
      simp only [informOne, hn]
      obtain ⟨hlt, hiff⟩ := hinv (neighborCoord x d) n hn
      have hback := hiff (opposite d)
      rw [neighborCoord_opposite] at hback
      by_cases hnf : n.fillStyle = fill
      · have hbit : n.adjacency &&& cardinalBit (opposite d) = cardinalBit (opposite d) :=
          hback.mpr ⟨cx, hx, by rw [hfx, hnf]⟩
        rw [if_pos hnf, setMaskBit_id hlt (opposite d) hbit]
        exact updateStore_self g (neighborCoord x d) n hnd hn
      · have hbit : ¬ n.adjacency &&& cardinalBit (opposite d) = cardinalBit (opposite d) := by
          intro hb
          obtain ⟨m, hm, hmf⟩ := hback.mp hb
          injection hx.symm.trans hm with h2
          refine hnf ?_
          rw [← hmf, ← h2, hfx]
        rw [if_neg hnf, unsetMaskBit_id hlt (opposite d) hbit]
        exact updateStore_self g (neighborCoord x d) n hnd hn

lemma informAdjacent_id (fill : String) (g : CellStore) (x : GridCellCoord)
    (hnd : (storeKeys g).Nodup) (hinv : AdjacencyInv g)
    {cx : GridCell} (hx : getCell g x = some cx) (hfx : cx.fillStyle = fill) :
    informAdjacentNeighbors fill g x = g := by
  simp only [informAdjacentNeighbors, directionList, List.foldl_cons, List.foldl_nil]
  rw [informOne_id fill g x Direction.north hnd hinv hx hfx,
    informOne_id fill g x Direction.east hnd hinv hx hfx,
    informOne_id fill g x Direction.south hnd hinv hx hfx,
    informOne_id fill g x Direction.west hnd hinv hx hfx]

lemma option_FA_exists {o o' : Option GridCell} {f : String}
    (h : o'.map (fun n => (n.fillStyle, n.adjacency)) =
      o.map (fun n => (n.fillStyle, n.adjacency))) :
    (∃ n, o' = some n ∧ n.fillStyle = f) ↔ (∃ n, o = some n ∧ n.fillStyle = f) := by
  cases o <;> cases o' <;> simp_all

lemma adjacencyInv_congr {g g' : CellStore}
    (h : ∀ y, (getCell g' y).map (fun n => (n.fillStyle, n.adjacency)) =
      (getCell g y).map (fun n => (n.fillStyle, n.adjacency)))
    (hinv : AdjacencyInv g) : AdjacencyInv g' := by
  intro c cell hc
  have hcp := h c
  rw [hc] at hcp
  cases ho : getCell g c with
  | none =>
      rw [ho] at hcp
      simp at hcp
  | some cell0 =>
      rw [ho] at hcp
      simp at hcp
      obtain ⟨hlt, hiff⟩ := hinv c cell0 ho
      refine ⟨by rw [hcp.2]; exact hlt, ?_⟩
      intro d
      rw [hcp.1, hcp.2, option_FA_exists (h (neighborCoord c d))]
      exact hiff d

lemma updateStore_region_FA (g : CellStore) (c : GridCellCoord) (cell : GridCell) (nid : Nat)
    (hc : getCell g c = some cell) (y : GridCellCoord) :
    (getCell (updateStore g c { cell with regionId := nid }) y).map
        (fun n => (n.fillStyle, n.adjacency)) =
      (getCell g y).map (fun n => (n.fillStyle, n.adjacency)) := by
  rw [getCell_updateStore]
  by_cases hy : y = c
  · rw [if_pos hy, hy, hc]
    rfl
  · rw [if_neg hy]

lemma floodUpdate_eq_of_inv (fill : String) (nid : Nat) (g : CellStore) (c : GridCellCoord)
    (hnd : (storeKeys g).Nodup) (hinv : AdjacencyInv g)
    {cell : GridCell} (hc : getCell g c = some cell) (hf : cell.fillStyle = fill) :
    floodUpdate fill nid g c = updateStore g c { cell with regionId := nid } := by
  simp only [floodUpdate, hc]
  have hFA := updateStore_region_FA g c cell nid hc
  have hndX : (storeKeys (updateStore g c { cell with regionId := nid })).Nodup := by
    rw [storeKeys_updateStore]
    exact hnd
  have hinvX : AdjacencyInv (updateStore g c { cell with regionId := nid }) :=
    adjacencyInv_congr hFA hinv
  have hcX : getCell (updateStore g c { cell with regionId := nid }) c =
      some { cell with regionId := nid } := by
    rw [getCell_updateStore, if_pos rfl, hc]
    rfl
  exact informAdjacent_id fill _ c hndX hinvX hcX hf

lemma floodVisit_store_id (fill : String) (nid : Nat) (g : CellStore)
    (hnd : (storeKeys g).Nodup) (hinv : AdjacencyInv g)
    (hreg : ∀ x cx, getCell g x = some cx → cx.fillStyle = fill → cx.regionId = nid) :
    ∀ (fuel : Nat) (v : List GridCellCoord) (c : GridCellCoord),
      (floodVisit fill fill nid fuel (g, v) c).1 = g := by
  intro fuel
  induction fuel with
  | zero => intro v c; rfl
  | succ fuel ih =>
      intro v c
      by_cases hc : c ∈ v
      · simp [floodVisit, hc]
      · cases hg : getCell g c with
        | none => simp [floodVisit, hc, hg]
        | some cell =>
            have hg1 : (if cell.fillStyle = fill then floodUpdate fill nid g c else g) = g := by
              by_cases hf : cell.fillStyle = fill
              · rw [if_pos hf, floodUpdate_eq_of_inv fill nid g c hnd hinv hg hf]
                have hcc : ({ cell with regionId := nid } : GridCell) = cell := by
                  rw [← hreg c cell hg hf]
                rw [hcc]
                exact updateStore_self g c cell hnd hg
              · rw [if_neg hf]
            have aux : ∀ (ds : List Direction) (v2 : List GridCellCoord),
                (List.foldl (fun q d => floodVisit fill fill nid fuel q (neighborCoord c d))
                  (g, v2) ds).1 = g := by
              intro ds
              induction ds with
              | nil => intro v2; rfl
              | cons d0 rest ihds =>
                  intro v2
                  rw [List.foldl_cons]
                  have hstep : floodVisit fill fill nid fuel (g, v2) (neighborCoord c d0) =
                      (g, (floodVisit fill fill nid fuel (g, v2) (neighborCoord c d0)).2) :=
                    Prod.ext (ih v2 (neighborCoord c d0)) rfl
                  rw [hstep]
                  exact ihds _
            simp only [floodVisit, if_neg hc, hg, hg1]
            exact aux directionList (c :: v)

lemma setIdForRegion_id (fill : String) (g : CellStore) (start : GridCellCoord)
    (hnd : (storeKeys g).Nodup) (hinv : AdjacencyInv g)
    {sc0 : GridCell} (hs : getCell g start = some sc0) (hf : sc0.fillStyle = fill)
    (hreg : ∀ x cx, getCell g x = some cx → cx.fillStyle = fill →
      cx.regionId = sc0.regionId) :
    setIdForRegion fill g start = g := by
  simp only [setIdForRegion, hs]
  rw [hf]
  exact floodVisit_store_id fill sc0.regionId g hnd hinv hreg (g.length + 1) [] start

/-! ### Reachability lemmas for the region-merge claim -/

lemma isSome_of_map_fill {o : Option GridCell} {f : String}
    (h : o.map GridCell.fillStyle = some f) : o.isSome := by
  cases o <;> simp_all

lemma likeReach_colored {g : CellStore} {fillA : String} {a z : GridCellCoord}
    (h : LikeReach g fillA a z) : (getCell g z).map GridCell.fillStyle = some fillA := by
  induction h with
  | refl h1 h2 => rw [h1]; simp [h2]
  | step d hr hcell hfill ih => rw [hcell]; simp [hfill]

/-- Lifting a same-color path in the pre-paint store to a stored-cell path
in the post-insert store: the two stores agree on fill styles away from the
painted coordinate, and no cell of the path sits at the painted coordinate
because the painted coordinate did not carry the active color. -/
lemma likeReach_lift (gOld gNew : CellStore) (fillA : String) (c : GridCellCoord)
    (hview : ∀ y, ¬ y = c →
      (getCell gNew y).map GridCell.fillStyle = (getCell gOld y).map GridCell.fillStyle)
    (hcOld : ¬ (getCell gOld c).map GridCell.fillStyle = some fillA)
    {a z : GridCellCoord} (hreach : LikeReach gOld fillA a z)
    (hstart : ReachStored gNew c a) :
    ReachStored gNew c z := by
  induction hreach with
  | refl h1 h2 => exact hstart
  | @step x d cell hr hcell hfill ihz =>
      have hz_ne : ¬ neighborCoord x d = c := by
        intro he
        apply hcOld
        rw [← he, hcell]
        simp [hfill]
      have hfv : (getCell gNew (neighborCoord x d)).map GridCell.fillStyle = some fillA := by
        rw [hview _ hz_ne, hcell]
        simp [hfill]
      exact ReachStored.step d ihz (isSome_of_map_fill hfv)

lemma floodVisit_reach_mem (fill sc : String) (nid : Nat) (fuel : Nat) (g : CellStore)
    (start : GridCellCoord) (hfuel : keysLeft g [] < fuel)
    (hstart : (getCell g start).isSome) :
    ∀ z, ReachStored g start z → z ∈ (floodVisit fill sc nid fuel (g, []) start).2 := by
  intro z hz
  induction hz with
  | refl => exact floodVisit_start_mem fill sc nid fuel (g, []) start hfuel (Or.inl hstart)
  | step d hreach hstored ihz =>
      exact floodVisit_closed fill sc nid fuel (g, []) start hfuel _ ihz
        (List.not_mem_nil _) d hstored

/-- Every cell reachable through stored cells from the start of
setIdForRegion and carrying the start fill ends with the start region
id. -/
lemma setIdForRegion_region (fill : String) (g : CellStore) (start : GridCellCoord)
    {sc0 : GridCell} (hs : getCell g start = some sc0) :
    ∀ z, ReachStored g start z →
      ∀ cz, getCell (setIdForRegion fill g start) z = some cz →
        cz.fillStyle = sc0.fillStyle → cz.regionId = sc0.regionId := by
  intro z hz cz hcz hf
  have hfuel : keysLeft g [] < g.length + 1 := Nat.lt_succ_of_le (keysLeft_le_length g [])
  have hmem : z ∈
      (floodVisit fill sc0.fillStyle sc0.regionId (g.length + 1) (g, []) start).2 :=
    floodVisit_reach_mem fill sc0.fillStyle sc0.regionId (g.length + 1) g start hfuel
      (by rw [hs]; rfl) z hz
  simp only [setIdForRegion, hs] at hcz
  exact floodVisit_region_assigned fill sc0.fillStyle sc0.regionId (g.length + 1) (g, [])
    start (fun x hx => absurd hx (List.not_mem_nil x)) z hmem cz hcz hf

/-! ### The flood fill preserves fill styles and adjacency masks -/

lemma floodVisit_FA (fill : String) (nid : Nat) :
    ∀ (fuel : Nat) (g : CellStore) (v : List GridCellCoord) (c : GridCellCoord),
      (storeKeys g).Nodup → AdjacencyInv g →
      ∀ y, (getCell (floodVisit fill fill nid fuel (g, v) c).1 y).map
          (fun n => (n.fillStyle, n.adjacency)) =
        (getCell g y).map (fun n => (n.fillStyle, n.adjacency)) := by
  intro fuel
  induction fuel with
  | zero => intro g v c _ _ y; rfl
  | succ fuel ih =>
      intro g v c hnd hinv y
      by_cases hc : c ∈ v
      · have hres : floodVisit fill fill nid (fuel + 1) (g, v) c = (g, v) := by
          simp [floodVisit, hc]
        rw [hres]
      · cases hg : getCell g c with
        | none =>
            have hres : floodVisit fill fill nid (fuel + 1) (g, v) c = (g, v) := by
              simp [floodVisit, hc, hg]
            rw [hres]
        | some cell =>
            have hres : floodVisit fill fill nid (fuel + 1) (g, v) c =
                List.foldl (fun q d => floodVisit fill fill nid fuel q (neighborCoord c d))
                  ((if cell.fillStyle = fill then floodUpdate fill nid g c else g), c :: v)
                  directionList := by
              simp only [floodVisit, if_neg hc, hg]
            rw [hres]
            have hg1FA : ∀ y2,
                (getCell (if cell.fillStyle = fill then floodUpdate fill nid g c else g)
                    y2).map (fun n => (n.fillStyle, n.adjacency)) =
                  (getCell g y2).map (fun n => (n.fillStyle, n.adjacency)) := by
              intro y2
              by_cases hf : cell.fillStyle = fill
              · rw [if_pos hf, floodUpdate_eq_of_inv fill nid g c hnd hinv hg hf]
                exact updateStore_region_FA g c cell nid hg y2
              · rw [if_neg hf]
            have hg1keys :
                storeKeys (if cell.fillStyle = fill then floodUpdate fill nid g c else g) =
                  storeKeys g := by
              split
              · exact storeKeys_floodUpdate fill nid g c
              · rfl
            have aux : ∀ (ds : List Direction) (q : CellStore × List GridCellCoord),
                (∀ y2, (getCell q.1 y2).map (fun n => (n.fillStyle, n.adjacency)) =
                  (getCell g y2).map (fun n => (n.fillStyle, n.adjacency))) →
                storeKeys q.1 = storeKeys g →
                ∀ y2, (getCell (List.foldl
                    (fun q d => floodVisit fill fill nid fuel q (neighborCoord c d))
                    q ds).1 y2).map (fun n => (n.fillStyle, n.adjacency)) =
                  (getCell g y2).map (fun n => (n.fillStyle, n.adjacency)) := by
              intro ds
              induction ds with
              | nil => intro q hq hk y2; exact hq y2
              | cons d0 rest ihds =>
                  intro q hq hk y2
                  rw [List.foldl_cons]
                  have hndq : (storeKeys q.1).Nodup := by
                    rw [hk]
                    exact hnd
                  have hinvq : AdjacencyInv q.1 := adjacencyInv_congr hq hinv
                  have hstep : ∀ y3,
                      (getCell (floodVisit fill fill nid fuel q (neighborCoord c d0)).1
                          y3).map (fun n => (n.fillStyle, n.adjacency)) =
                        (getCell g y3).map (fun n => (n.fillStyle, n.adjacency)) := by
                    intro y3
                    exact (ih q.1 q.2 (neighborCoord c d0) hndq hinvq y3).trans (hq y3)
                  have hkeystep :
                      storeKeys (floodVisit fill fill nid fuel q (neighborCoord c d0)).1 =
                        storeKeys g :=
                    (floodVisit_storeKeys fill fill nid fuel q (neighborCoord c d0)).trans hk
                  exact ihds _ hstep hkeystep y2
            exact aux directionList _ hg1FA hg1keys y

lemma setIdForRegion_FA (fill : String) (g : CellStore) (start : GridCellCoord)
    (hnd : (storeKeys g).Nodup) (hinv : AdjacencyInv g)
    {sc0 : GridCell} (hs : getCell g start = some sc0) (hf : sc0.fillStyle = fill) :
    ∀ y, (getCell (setIdForRegion fill g start) y).map
        (fun n => (n.fillStyle, n.adjacency)) =
      (getCell g y).map (fun n => (n.fillStyle, n.adjacency)) := by
  intro y
  simp only [setIdForRegion, hs]
  rw [hf]
  exact floodVisit_FA fill sc0.regionId (g.length + 1) g [] start hnd hinv y

/-! ### Painting establishes the adjacency invariant -/

lemma map_fill_some_iff {o : Option GridCell} {f : String} :
    o.map GridCell.fillStyle = some f ↔ ∃ n, o = some n ∧ n.fillStyle = f := by
  cases o <;> simp

lemma option_fill_exists {o o' : Option GridCell} {f : String}
    (h : o'.map GridCell.fillStyle = o.map GridCell.fillStyle) :
    (∃ n, o' = some n ∧ n.fillStyle = f) ↔ (∃ n, o = some n ∧ n.fillStyle = f) := by
  rw [← map_fill_some_iff, ← map_fill_some_iff, h]

lemma neighborHasFill_iff (g : CellStore) (fill : String) (c : GridCellCoord)
    (d : Direction) :
    neighborHasFill g fill c d = true ↔
      ∃ n, getCell g (neighborCoord c d) = some n ∧ n.fillStyle = fill := by
  rw [neighborHasFill, decide_eq_true_eq, map_fill_some_iff]

/-- Storing the cell built by paintCell and informing the four neighbors
restores the adjacency invariant. -/
lemma insert_inform_inv (g : CellStore) (fill : String) (c : GridCellCoord) (rid : Nat)
    (hinv : AdjacencyInv g) :
    AdjacencyInv (informAdjacentNeighbors fill
      (setCellStore g c ⟨fill, makeAdjacencyMask g fill c, rid⟩) c) := by
  set newCell : GridCell := ⟨fill, makeAdjacencyMask g fill c, rid⟩ with hnew
  set g1 := setCellStore g c newCell with hg1
  set g2 := informAdjacentNeighbors fill g1 c with hg2
  have h1 : ∀ w, getCell g1 w = if w = c then some newCell else getCell g w := by
    intro w
    rw [hg1, getCell_setCellStore]
  have hfillG2 : ∀ w, (getCell g2 w).map GridCell.fillStyle =
      (getCell g1 w).map GridCell.fillStyle := by
    intro w
    exact option_fillRegion_fill (inform_fillRegion fill g1 c w)
  have hexc : ∀ φ : String, (∃ n, getCell g2 c = some n ∧ n.fillStyle = φ) ↔ fill = φ := by
    intro φ
    rw [option_fill_exists (hfillG2 c), h1 c, if_pos rfl]
    simp [hnew]
  have hexo : ∀ w (φ : String), ¬ w = c →
      ((∃ n, getCell g2 w = some n ∧ n.fillStyle = φ) ↔
        (∃ n, getCell g w = some n ∧ n.fillStyle = φ)) := by
    intro w φ hw
    rw [option_fill_exists (hfillG2 w), h1 w, if_neg hw]
  intro x cell hx
  by_cases hxc : x = c
  · subst hxc
    have hgx : getCell g2 x = some newCell := by
      rw [hg2, getCell_informAdjacent_self, h1 x, if_pos rfl]
    injection hx.symm.trans hgx with h2
    subst h2
    refine ⟨maskOfBools_lt (neighborHasFill g fill x), ?_⟩
    intro d
    have hmask : newCell.adjacency = maskOfBools (neighborHasFill g fill x) := rfl
    rw [hmask, maskOfBools_and, neighborHasFill_iff,
      hexo (neighborCoord x d) newCell.fillStyle (neighborCoord_ne x d)]
  · by_cases hxd : ∃ dx : Direction, x = neighborCoord c dx
    · obtain ⟨dx, rfl⟩ := hxd
      have hG2x : getCell g2 (neighborCoord c dx) =
          (getCell g (neighborCoord c dx)).map (informAdjust fill dx) := by
        rw [hg2, getCell_informAdjacent_neighbor, h1, if_neg (neighborCoord_ne c dx)]
      rw [hG2x] at hx
      cases hold : getCell g (neighborCoord c dx) with
      | none =>
          rw [hold] at hx
          exact absurd hx (by simp)
      | some nOld =>
          rw [hold] at hx
          injection hx with h2
          obtain ⟨hltO, hiffO⟩ := hinv (neighborCoord c dx) nOld hold
          subst h2
          constructor
          · by_cases hnf : nOld.fillStyle = fill
            · simpa [informAdjust, hnf] using setMaskBit_lt hltO (opposite dx)
            · simpa [informAdjust, hnf] using unsetMaskBit_lt hltO (opposite dx)
          · intro d'
            have hfillAdj : (informAdjust fill dx nOld).fillStyle = nOld.fillStyle := rfl
            by_cases hdd : d' = opposite dx
            · subst hdd
              rw [neighborCoord_opposite c dx, hexc ((informAdjust fill dx nOld).fillStyle),
                hfillAdj]
              by_cases hnf : nOld.fillStyle = fill
              · simp only [informAdjust, if_pos hnf]
                rw [setMaskBit_and hltO]
                simp [hnf]
              · simp only [informAdjust, if_neg hnf]
                rw [unsetMaskBit_and hltO]
                constructor
                · rintro ⟨h3, _⟩
                  exact absurd rfl h3
                · intro h3
                  exact absurd h3.symm hnf
            · have hne : ¬ neighborCoord (neighborCoord c dx) d' = c := by
                intro he
                apply hdd
                rw [neighborCoord_eq_iff] at he
                have h4 := neighborCoord_injective c he
                have h5 : opposite dx = d' := by
                  rw [h4, opposite_opposite]
                exact h5.symm
              rw [hexo _ _ hne, hfillAdj]
              by_cases hnf : nOld.fillStyle = fill
              · simp only [informAdjust, if_pos hnf]
                rw [setMaskBit_and hltO, or_iff_right (fun h3 => hdd h3.symm)]
                exact hiffO d'
              · simp only [informAdjust, if_neg hnf]
                rw [unsetMaskBit_and hltO, and_iff_right (fun h3 => hdd h3.symm)]
                exact hiffO d'
    · push_neg at hxd
      have hG2x : getCell g2 x = getCell g x := by
        rw [hg2, getCell_informAdjacent_other fill g1 c x hxd, h1 x, if_neg hxc]
      rw [hG2x] at hx
      obtain ⟨hltO, hiffO⟩ := hinv x cell hx
      refine ⟨hltO, ?_⟩
      intro d'
      have hne : ¬ neighborCoord x d' = c := by
        intro he
        rw [neighborCoord_eq_iff] at he
        exact hxd (opposite d') he
      rw [hexo _ _ hne]
      exact hiffO d'

lemma storeKeys_setCellStore_nodup (g : CellStore) (c : GridCellCoord) (cell : GridCell)
    (hnd : (storeKeys g).Nodup) : (storeKeys (setCellStore g c cell)).Nodup := by
  by_cases hc : (getCell g c).isSome
  · rw [storeKeys_setCellStore_isSome g c cell hc]
    exact hnd
  · have hnone : getCell g c = none := Option.not_isSome_iff_eq_none.mp hc
    rw [storeKeys_setCellStore_none g c cell hnone]
    have hcn : ¬ c ∈ storeKeys g := (getCell_none_iff g c).mp hnone
    refine List.nodup_append.mpr ⟨hnd, List.nodup_singleton c, ?_⟩
    intro a ha hb
    rw [List.mem_singleton] at hb
    exact hcn (hb ▸ ha)

lemma paintCell_inv (s : CanvasState) (c : GridCellCoord)
    (hnd : (storeKeys s.cellData).Nodup) (hinv : AdjacencyInv s.cellData) :
    (storeKeys (paintCell s c).cellData).Nodup ∧ AdjacencyInv (paintCell s c).cellData := by
  by_cases hp : shouldPaintCell s c = true
  · rw [paintCell_of_should s c hp]
    dsimp only
    have hinv2 : AdjacencyInv (informAdjacentNeighbors s.fillStyle
        (setCellStore s.cellData c (paintedCell s c)) c) :=
      insert_inform_inv s.cellData s.fillStyle c
        ((getAdjacentLikeRegionIds s.cellData s.fillStyle c).head?.getD s.nextRegionId) hinv
    have hnd2 : (storeKeys (informAdjacentNeighbors s.fillStyle
        (setCellStore s.cellData c (paintedCell s c)) c)).Nodup := by
      rw [storeKeys_informAdjacent]
      exact storeKeys_setCellStore_nodup s.cellData c _ hnd
    have hc2 : getCell (informAdjacentNeighbors s.fillStyle
        (setCellStore s.cellData c (paintedCell s c)) c) c = some (paintedCell s c) := by
      rw [getCell_informAdjacent_self, getCell_setCellStore, if_pos rfl]
    constructor
    · rw [setIdForRegion_storeKeys]
      exact hnd2
    · exact adjacencyInv_congr
        (setIdForRegion_FA s.fillStyle _ c hnd2 hinv2 hc2 rfl) hinv2
  · rw [paintCell_of_not s c hp]
    exact ⟨hnd, hinv⟩

/-- Claim C2: in every state reachable from the empty grid by setFillStyle
and paintCell operations, the adjacency bit of a stored cell in direction
D is set exactly when a cell exists at the neighboring coordinate in
direction D and that neighbor carries the same fill style. -/
theorem C2_adjacency_invariant (s : CanvasState) (hs : Reachable s) :
    ∀ (c : GridCellCoord) (cell : GridCell), getCell s.cellData c = some cell →
      ∀ d : Direction,
        (cell.adjacency &&& cardinalBit d = cardinalBit d ↔
          ∃ n, getCell s.cellData (neighborCoord c d) = some n ∧
            n.fillStyle = cell.fillStyle) := by
  have key : (storeKeys s.cellData).Nodup ∧ AdjacencyInv s.cellData := by
    induction hs with
    | init =>
        refine ⟨List.nodup_nil, ?_⟩
        intro c cell hc
        exact absurd hc (by simp [initialState, getCell])
    | fill color hs ih => exact ih
    | paint c hs ih => exact paintCell_inv _ c ih.1 ih.2
  intro c cell hc d
  exact (key.2 c cell hc).2 d

theorem C2_witness :
    ((⟨"indianred", 4, 0⟩ : GridCell).adjacency &&& cardinalBit Direction.north =
        cardinalBit Direction.north ↔
      ∃ n, getCell (paintCell (paintCell initialState (0, 0)) (0, 1)).cellData
          (neighborCoord (0, 0) Direction.north) = some n ∧
        n.fillStyle = (⟨"indianred", 4, 0⟩ : GridCell).fillStyle) :=
  C2_adjacency_invariant (paintCell (paintCell initialState (0, 0)) (0, 1))
    (Reachable.paint (0, 1) (Reachable.paint (0, 0) Reachable.init)) (0, 0)
    ⟨"indianred", 4, 0⟩ rfl Direction.north

/-- Claim C3: painting the active color A at a coordinate adjacent (in
directions dx and dy) to cells of color A unifies the region ids: every
cell same-color-connected in the pre-paint store to either of those
neighbor cells, and the new cell itself, carries one single region id
after the paint.  In particular two disjoint color-A components bridged by
the paint end up with one shared id. -/
theorem C3_bridge_merges_regions (s : CanvasState) (c : GridCellCoord)
    (dx dy : Direction) (nx ny : GridCell)
    (hnx : getCell s.cellData (neighborCoord c dx) = some nx)
    (hnxf : nx.fillStyle = s.fillStyle)
    (hny : getCell s.cellData (neighborCoord c dy) = some ny)
    (hnyf : ny.fillStyle = s.fillStyle)
    (hp : shouldPaintCell s c = true) :
    ∃ r : Nat,
      (getCell (paintCell s c).cellData c).map GridCell.regionId = some r ∧
      ∀ z : GridCellCoord,
        (LikeReach s.cellData s.fillStyle (neighborCoord c dx) z ∨
          LikeReach s.cellData s.fillStyle (neighborCoord c dy) z) →
        (getCell (paintCell s c).cellData z).map GridCell.regionId = some r := by
  have hcOld : ¬ (getCell s.cellData c).map GridCell.fillStyle = some s.fillStyle := by
    simpa [shouldPaintCell] using hp
  rw [paintCell_of_should s c hp]
  dsimp only
  set g2 := informAdjacentNeighbors s.fillStyle
    (setCellStore s.cellData c (paintedCell s c)) c with hg2def
  have hG2c : getCell g2 c = some (paintedCell s c) := by
    rw [hg2def, getCell_informAdjacent_self, getCell_setCellStore, if_pos rfl]
  have hview : ∀ y, ¬ y = c →
      (getCell g2 y).map GridCell.fillStyle = (getCell s.cellData y).map GridCell.fillStyle := by
    intro y hy
    have h1 := option_fillRegion_fill (inform_fillRegion s.fillStyle
      (setCellStore s.cellData c (paintedCell s c)) c y)
    rw [hg2def, h1, getCell_setCellStore, if_neg hy]
  refine ⟨(paintedCell s c).regionId, ?_, ?_⟩
  · have hfillG3 : (getCell (setIdForRegion s.fillStyle g2 c) c).map GridCell.fillStyle =
        some s.fillStyle := by
      rw [setIdForRegion_fill, hG2c]
      rfl
    cases hg3 : getCell (setIdForRegion s.fillStyle g2 c) c with
    | none => rw [hg3] at hfillG3; simp at hfillG3
    | some cz =>
        rw [hg3] at hfillG3
        simp at hfillG3
        have hr := setIdForRegion_region s.fillStyle g2 c hG2c c ReachStored.refl cz hg3
          hfillG3
        simp [hr]
  · intro z hz
    have hzcol : (getCell s.cellData z).map GridCell.fillStyle = some s.fillStyle := by
      rcases hz with h | h
      exacts [likeReach_colored h, likeReach_colored h]
    have hzc : ¬ z = c := fun he => hcOld (he ▸ hzcol)
    have hreachz : ReachStored g2 c z := by
      rcases hz with h | h
      · refine likeReach_lift s.cellData g2 s.fillStyle c hview hcOld h ?_
        refine ReachStored.step dx ReachStored.refl ?_
        have hnfv : (getCell g2 (neighborCoord c dx)).map GridCell.fillStyle =
            some s.fillStyle := by
          rw [hview _ (neighborCoord_ne c dx), hnx]
          simp [hnxf]
        exact isSome_of_map_fill hnfv
      · refine likeReach_lift s.cellData g2 s.fillStyle c hview hcOld h ?_
        refine ReachStored.step dy ReachStored.refl ?_
        have hnfv : (getCell g2 (neighborCoord c dy)).map GridCell.fillStyle =
            some s.fillStyle := by
          rw [hview _ (neighborCoord_ne c dy), hny]
          simp [hnyf]
        exact isSome_of_map_fill hnfv
    have hfillG3z : (getCell (setIdForRegion s.fillStyle g2 c) z).map GridCell.fillStyle =
        some s.fillStyle := by
      rw [setIdForRegion_fill, hview z hzc]
      exact hzcol
    cases hg3 : getCell (setIdForRegion s.fillStyle g2 c) z with
    | none => rw [hg3] at hfillG3z; simp at hfillG3z
    | some cz =>
        rw [hg3] at hfillG3z
        simp at hfillG3z
        have hr := setIdForRegion_region s.fillStyle g2 c hG2c z hreachz cz hg3 hfillG3z
        simp [hr]

theorem C3_witness :
    ∃ r : Nat,
      (getCell (paintCell ⟨[((0, 0), ⟨"indianred", 0, 0⟩), ((0, 2), ⟨"indianred", 0, 1⟩)],
          "indianred", 2, true⟩ (0, 1)).cellData (0, 1)).map GridCell.regionId = some r ∧
      ∀ z : GridCellCoord,
        (LikeReach [((0, 0), ⟨"indianred", 0, 0⟩), ((0, 2), ⟨"indianred", 0, 1⟩)]
            "indianred" (neighborCoord (0, 1) Direction.west) z ∨
          LikeReach [((0, 0), ⟨"indianred", 0, 0⟩), ((0, 2), ⟨"indianred", 0, 1⟩)]
            "indianred" (neighborCoord (0, 1) Direction.east) z) →
        (getCell (paintCell ⟨[((0, 0), ⟨"indianred", 0, 0⟩), ((0, 2), ⟨"indianred", 0, 1⟩)],
            "indianred", 2, true⟩ (0, 1)).cellData z).map GridCell.regionId = some r :=
  C3_bridge_merges_regions
    ⟨[((0, 0), ⟨"indianred", 0, 0⟩), ((0, 2), ⟨"indianred", 0, 1⟩)], "indianred", 2, true⟩
    (0, 1) Direction.west Direction.east ⟨"indianred", 0, 0⟩ ⟨"indianred", 0, 1⟩
    (by decide) rfl (by decide) rfl (by decide)

/-! ### Claims C10, C4, C1 and C9 -/

/-- Claim C10: the flood-fill recursion terminates on every finite grid.
The visited-set guard means the recursion needs no more fuel than the
number of stored cells plus one: any fuel of at least that bound produces
the same result (so the unbounded recursion of the source returns), and
the visited set never holds a cell twice. -/
theorem C10_flood_terminates (fill sc : String) (nid : Nat) (g : CellStore)
    (start : GridCellCoord) (fuel : Nat) (h : g.length + 1 ≤ fuel) :
    floodVisit fill sc nid fuel (g, []) start =
      floodVisit fill sc nid (g.length + 1) (g, []) start ∧
    (floodVisit fill sc nid fuel (g, []) start).2.Nodup := by
  have hkl : keysLeft g [] < g.length + 1 := Nat.lt_succ_of_le (keysLeft_le_length g [])
  exact ⟨floodVisit_fuel_ge fill sc nid (g.length + 1) fuel (g, []) start hkl h,
    floodVisit_visited_nodup fill sc nid fuel (g, []) start List.nodup_nil⟩

theorem C10_witness :
    (floodVisit "indianred" "indianred" 7 50
        ([((0, 0), ⟨"indianred", 0, 0⟩), ((0, 1), ⟨"indianred", 0, 0⟩)], []) (0, 0) =
      floodVisit "indianred" "indianred" 7 3
        ([((0, 0), ⟨"indianred", 0, 0⟩), ((0, 1), ⟨"indianred", 0, 0⟩)], []) (0, 0)) ∧
    (floodVisit "indianred" "indianred" 7 50
        ([((0, 0), ⟨"indianred", 0, 0⟩), ((0, 1), ⟨"indianred", 0, 0⟩)], []) (0, 0)).2.Nodup :=
  C10_flood_terminates "indianred" "indianred" 7
    [((0, 0), ⟨"indianred", 0, 0⟩), ((0, 1), ⟨"indianred", 0, 0⟩)] (0, 0) 50 (by norm_num)

/-- Claim C4: painting a coordinate whose stored cell already has the
active color is a no-op on the whole state, and painting the same
coordinate twice equals painting it once. -/
theorem C4_repaint_noop :
    (∀ (s : CanvasState) (c : GridCellCoord) (cell : GridCell),
        getCell s.cellData c = some cell → cell.fillStyle = s.fillStyle →
          paintCell s c = s) ∧
    (∀ (s : CanvasState) (c : GridCellCoord),
        paintCell (paintCell s c) c = paintCell s c) := by
  have hshort : ∀ (s : CanvasState) (c : GridCellCoord) (cell : GridCell),
      getCell s.cellData c = some cell → cell.fillStyle = s.fillStyle →
        paintCell s c = s := by
    intro s c cell hcell hfill
    apply paintCell_of_not
    simp [shouldPaintCell, hcell, hfill]
  refine ⟨hshort, fun s c => ?_⟩
  by_cases hp : shouldPaintCell s c = true
  · have hfill2 : (getCell (paintCell s c).cellData c).map GridCell.fillStyle =
        some s.fillStyle := by
      rw [paintCell_of_should s c hp]
      dsimp only
      rw [setIdForRegion_fill, getCell_informAdjacent_self, getCell_setCellStore, if_pos rfl]
      rfl
    have hfs : (paintCell s c).fillStyle = s.fillStyle := by
      rw [paintCell_of_should s c hp]
    apply paintCell_of_not
    simp [shouldPaintCell, hfill2, hfs]
  · have hid : paintCell s c = s := paintCell_of_not s c hp
    simp only [hid]

theorem C4_witness :
    paintCell ⟨[((0, 0), ⟨"indianred", 0, 0⟩)], "indianred", 1, true⟩ (0, 0) =
      ⟨[((0, 0), ⟨"indianred", 0, 0⟩)], "indianred", 1, true⟩ :=
  C4_repaint_noop.1 ⟨[((0, 0), ⟨"indianred", 0, 0⟩)], "indianred", 1, true⟩ (0, 0)
    ⟨"indianred", 0, 0⟩ rfl rfl

/-- Claim C1 is wrong about the code, and the flaw is in the code: the
flood-fill traversal of floodFill recurses into every existing neighbor
regardless of color (the color condition only gates the update), so it
crosses color mismatches.  Concrete run: paint blue at (0, 1), red at
(0, 2) (which gets region id 1), then red at (0, 0).  The red cell at
(0, 2) is separated from (0, 0) by the blue cell at (0, 1), yet the fill
walks through the blue cell and overwrites the region id at (0, 2) with
the fresh id 2 of the new component. -/
theorem C1_flood_crosses_color_mismatch :
    ((getCell (paintCell (setFillStyle (paintCell
          { cellData := [], fillStyle := "#4b76ff", nextRegionId := 0, shouldRender := true }
          (0, 1)) "indianred") (0, 2)).cellData (0, 2)).map GridCell.regionId = some 1) ∧
    ((getCell (paintCell (paintCell (setFillStyle (paintCell
          { cellData := [], fillStyle := "#4b76ff", nextRegionId := 0, shouldRender := true }
          (0, 1)) "indianred") (0, 2)) (0, 0)).cellData (0, 2)).map GridCell.regionId =
        some 2) ∧
    ((getCell (paintCell (paintCell (setFillStyle (paintCell
          { cellData := [], fillStyle := "#4b76ff", nextRegionId := 0, shouldRender := true }
          (0, 1)) "indianred") (0, 2)) (0, 0)).cellData (0, 1)).map GridCell.fillStyle =
        some "#4b76ff") := by
  refine ⟨rfl, rfl, rfl⟩

lemma chainStore_inv (A : String) :
    AdjacencyInv [((0, 0), ⟨A, 4, 0⟩), ((0, 1), ⟨A, 5, 0⟩), ((0, 2), ⟨A, 1, 0⟩)] := by
  intro c cell hc
  have hmem2 : c = (0, 0) ∨ c = (0, 1) ∨ c = (0, 2) := by
    have hm := (getCell_isSome_iff_mem
      [((0, 0), ⟨A, 4, 0⟩), ((0, 1), ⟨A, 5, 0⟩), ((0, 2), ⟨A, 1, 0⟩)] c).mp
      (by rw [hc]; rfl)
    simpa [storeKeys] using hm
  rcases hmem2 with rfl | rfl | rfl
  · have h0 : getCell [((0, 0), ⟨A, 4, 0⟩), ((0, 1), ⟨A, 5, 0⟩), ((0, 2), ⟨A, 1, 0⟩)]
        (0, 0) = some ⟨A, 4, 0⟩ := by simp +decide [getCell]
    injection hc.symm.trans h0 with h2
    rw [h2]
    refine ⟨by norm_num, ?_⟩
    intro d
    cases d <;> simp +decide [getCell, neighborCoord, cardinalBit]
  · have h0 : getCell [((0, 0), ⟨A, 4, 0⟩), ((0, 1), ⟨A, 5, 0⟩), ((0, 2), ⟨A, 1, 0⟩)]
        (0, 1) = some ⟨A, 5, 0⟩ := by simp +decide [getCell]
    injection hc.symm.trans h0 with h2
    rw [h2]
    refine ⟨by norm_num, ?_⟩
    intro d
    cases d <;> simp +decide [getCell, neighborCoord, cardinalBit]
  · have h0 : getCell [((0, 0), ⟨A, 4, 0⟩), ((0, 1), ⟨A, 5, 0⟩), ((0, 2), ⟨A, 1, 0⟩)]
        (0, 2) = some ⟨A, 1, 0⟩ := by simp +decide [getCell]
    injection hc.symm.trans h0 with h2
    rw [h2]
    refine ⟨by norm_num, ?_⟩
    intro d
    cases d <;> simp +decide [getCell, neighborCoord, cardinalBit]

lemma chainStore_reg (A : String) : ∀ x cx,
    getCell [((0, 0), ⟨A, 4, 0⟩), ((0, 1), ⟨A, 5, 0⟩), ((0, 2), ⟨A, 1, 0⟩)] x = some cx →
    cx.fillStyle = A → cx.regionId = 0 := by
  intro x cx hcx _
  have hmem2 : x = (0, 0) ∨ x = (0, 1) ∨ x = (0, 2) := by
    have hm := (getCell_isSome_iff_mem
      [((0, 0), ⟨A, 4, 0⟩), ((0, 1), ⟨A, 5, 0⟩), ((0, 2), ⟨A, 1, 0⟩)] x).mp
      (by rw [hcx]; rfl)
    simpa [storeKeys] using hm
  rcases hmem2 with rfl | rfl | rfl
  · have h0 : getCell [((0, 0), ⟨A, 4, 0⟩), ((0, 1), ⟨A, 5, 0⟩), ((0, 2), ⟨A, 1, 0⟩)]
        (0, 0) = some ⟨A, 4, 0⟩ := by simp +decide [getCell]
    injection hcx.symm.trans h0 with h2
    rw [h2]
  · have h0 : getCell [((0, 0), ⟨A, 4, 0⟩), ((0, 1), ⟨A, 5, 0⟩), ((0, 2), ⟨A, 1, 0⟩)]
        (0, 1) = some ⟨A, 5, 0⟩ := by simp +decide [getCell]
    injection hcx.symm.trans h0 with h2
    rw [h2]
  · have h0 : getCell [((0, 0), ⟨A, 4, 0⟩), ((0, 1), ⟨A, 5, 0⟩), ((0, 2), ⟨A, 1, 0⟩)]
        (0, 2) = some ⟨A, 1, 0⟩ := by simp +decide [getCell]
    injection hcx.symm.trans h0 with h2
    rw [h2]

set_option maxHeartbeats 3200000 in
/-- Claim C9: painting (0, 0), (0, 1), (0, 2) in that order on an empty
grid with any active color A yields three cells sharing one region id
(id 0), with adjacency masks East only (0b0100 = 4) at (0, 0), East and
West (0b0101 = 5) at (0, 1), and West only (0b0001 = 1) at (0, 2). -/
theorem C9_three_cell_chain (A : String) :
    getCell (paintCell (paintCell (paintCell
        ⟨[], A, 0, true⟩ (0, 0)) (0, 1)) (0, 2)).cellData (0, 0) = some ⟨A, 4, 0⟩ ∧
    getCell (paintCell (paintCell (paintCell
        ⟨[], A, 0, true⟩ (0, 0)) (0, 1)) (0, 2)).cellData (0, 1) = some ⟨A, 5, 0⟩ ∧
    getCell (paintCell (paintCell (paintCell
        ⟨[], A, 0, true⟩ (0, 0)) (0, 1)) (0, 2)).cellData (0, 2) = some ⟨A, 1, 0⟩ := by
  have h1 : paintCell (⟨[], A, 0, true⟩ : CanvasState) (0, 0) =
      ⟨[((0, 0), ⟨A, 0, 0⟩)], A, 1, true⟩ := by
    simp +decide [paintCell, shouldPaintCell, getCell, getAdjacentLikeRegionIds, directionList,
      neighborCoord, makeAdjacencyMask, maskOfBools, neighborHasFill, setCellStore,
      informAdjacentNeighbors, informOne, setIdForRegion, floodVisit, floodUpdate,
      updateStore, setMaskBit, unsetMaskBit, cardinalBit, opposite, Prod.ext_iff]
  have h2 : paintCell (⟨[((0, 0), ⟨A, 0, 0⟩)], A, 1, true⟩ : CanvasState) (0, 1) =
      ⟨[((0, 0), ⟨A, 4, 0⟩), ((0, 1), ⟨A, 1, 0⟩)], A, 1, true⟩ := by
    rw [paintCell_of_should _ _ (by simp +decide [shouldPaintCell, getCell])]
    have e1 : paintedCell (⟨[((0, 0), ⟨A, 0, 0⟩)], A, 1, true⟩ : CanvasState) (0, 1) =
        (⟨A, 1, 0⟩ : GridCell) := by
      simp +decide [paintedCell, getAdjacentLikeRegionIds, directionList, getCell,
        neighborCoord, makeAdjacencyMask, maskOfBools, neighborHasFill, setMaskBit,
        cardinalBit]
    have e2 : setCellStore [((0, 0), ⟨A, 0, 0⟩)] (0, 1) (⟨A, 1, 0⟩ : GridCell) =
        [((0, 0), ⟨A, 0, 0⟩), ((0, 1), ⟨A, 1, 0⟩)] := by
      simp +decide [setCellStore, getCell, updateStore]
    have e3 : informAdjacentNeighbors A [((0, 0), ⟨A, 0, 0⟩), ((0, 1), ⟨A, 1, 0⟩)] (0, 1) =
        [((0, 0), ⟨A, 4, 0⟩), ((0, 1), ⟨A, 1, 0⟩)] := by
      simp +decide [informAdjacentNeighbors, informOne, directionList, getCell, neighborCoord,
        updateStore, setMaskBit, unsetMaskBit, cardinalBit, opposite]
    have e4 : setIdForRegion A [((0, 0), ⟨A, 4, 0⟩), ((0, 1), ⟨A, 1, 0⟩)] (0, 1) =
        [((0, 0), ⟨A, 4, 0⟩), ((0, 1), ⟨A, 1, 0⟩)] := by
      simp +decide [setIdForRegion, getCell, floodVisit, floodUpdate, informAdjacentNeighbors,
        informOne, directionList, neighborCoord, updateStore, setMaskBit, unsetMaskBit,
        cardinalBit, opposite]
    have e5 : getAdjacentLikeRegionIds [((0, 0), ⟨A, 0, 0⟩)] A (0, 1) = [0] := by
      simp +decide [getAdjacentLikeRegionIds, directionList, getCell, neighborCoord]
    simp only [e1, e2, e3, e4, e5]
    rfl
  have h3 : paintCell
      (⟨[((0, 0), ⟨A, 4, 0⟩), ((0, 1), ⟨A, 1, 0⟩)], A, 1, true⟩ : CanvasState) (0, 2) =
      ⟨[((0, 0), ⟨A, 4, 0⟩), ((0, 1), ⟨A, 5, 0⟩), ((0, 2), ⟨A, 1, 0⟩)], A, 1, true⟩ := by
    rw [paintCell_of_should _ _ (by simp +decide [shouldPaintCell, getCell])]
    have e1 : paintedCell
        (⟨[((0, 0), ⟨A, 4, 0⟩), ((0, 1), ⟨A, 1, 0⟩)], A, 1, true⟩ : CanvasState) (0, 2) =
        (⟨A, 1, 0⟩ : GridCell) := by
      simp +decide [paintedCell, getAdjacentLikeRegionIds, directionList, getCell,
        neighborCoord, makeAdjacencyMask, maskOfBools, neighborHasFill, setMaskBit,
        cardinalBit]
    have e2 : setCellStore [((0, 0), ⟨A, 4, 0⟩), ((0, 1), ⟨A, 1, 0⟩)] (0, 2)
        (⟨A, 1, 0⟩ : GridCell) =
        [((0, 0), ⟨A, 4, 0⟩), ((0, 1), ⟨A, 1, 0⟩), ((0, 2), ⟨A, 1, 0⟩)] := by
      simp +decide [setCellStore, getCell, updateStore]
    have e3 : informAdjacentNeighbors A
        [((0, 0), ⟨A, 4, 0⟩), ((0, 1), ⟨A, 1, 0⟩), ((0, 2), ⟨A, 1, 0⟩)] (0, 2) =
        [((0, 0), ⟨A, 4, 0⟩), ((0, 1), ⟨A, 5, 0⟩), ((0, 2), ⟨A, 1, 0⟩)] := by
      simp +decide [informAdjacentNeighbors, informOne, directionList, getCell, neighborCoord,
        updateStore, setMaskBit, unsetMaskBit, cardinalBit, opposite]
    have e4 : setIdForRegion A
        [((0, 0), ⟨A, 4, 0⟩), ((0, 1), ⟨A, 5, 0⟩), ((0, 2), ⟨A, 1, 0⟩)] (0, 2) =
        [((0, 0), ⟨A, 4, 0⟩), ((0, 1), ⟨A, 5, 0⟩), ((0, 2), ⟨A, 1, 0⟩)] :=
      @setIdForRegion_id A
        [((0, 0), ⟨A, 4, 0⟩), ((0, 1), ⟨A, 5, 0⟩), ((0, 2), ⟨A, 1, 0⟩)] (0, 2)
        (by simp +decide [storeKeys]) (chainStore_inv A) ⟨A, 1, 0⟩
        (by simp +decide [getCell]) rfl (chainStore_reg A)
    have e5 : getAdjacentLikeRegionIds [((0, 0), ⟨A, 4, 0⟩), ((0, 1), ⟨A, 1, 0⟩)] A (0, 2) =
        [0] := by
      simp +decide [getAdjacentLikeRegionIds, directionList, getCell, neighborCoord]
    simp only [e1, e2, e3, e4, e5]
    rfl
  rw [h1, h2, h3]
  exact ⟨by simp +decide [getCell], by simp +decide [getCell], by simp +decide [getCell]⟩

end StoreMapper
